import Mathlib

/-!
The HTTP request helper of go-nsq, `api_request.go`, and its deadline-enforcing connection.

A shallow embedding of `apiRequestNegotiateV1`, `newDeadlineTransport`, `deadlinedConn`
and `wrappedResp`.  The Go standard-library calls the file makes (`fmt.Errorf`,
`http.NewRequest`, `http.Header`, `json.Unmarshal`, `net.Conn`) are embedded as executable
Lean functions following the standard library's behaviour; what only the outside world can
decide (how a URL parses, what the server answers, the Unicode tables) is a field of
`Env`.
-/

namespace GoNsq

/-! ## Bytes and strings -/

/-- Go strings and byte slices are sequences of bytes (every entry is meant to be below 256). -/
abbrev Bytes := List Nat

/-- The bytes of an ASCII literal. -/
def ascii (s : String) : Bytes := s.toList.map Char.toNat

/-! ## `unicode/utf8` -/

/-- The replacement rune `utf8.RuneError` (U+FFFD). -/
def runeError : Nat := 0xFFFD

/-- Table `first` of `unicode/utf8` for a lead byte: the length of the sequence it starts
(0 for an invalid lead byte, 1 for ASCII) and the accepted range of the second byte. -/
def leadInfo (c : Nat) : Nat × Nat × Nat :=
  if c < 0x80 then (1, 0, 0)
  else if c < 0xC2 then (0, 0, 0)
  else if c < 0xE0 then (2, 0x80, 0xBF)
  else if c = 0xE0 then (3, 0xA0, 0xBF)
  else if c = 0xED then (3, 0x80, 0x9F)
  else if c < 0xF0 then (3, 0x80, 0xBF)
  else if c = 0xF0 then (4, 0x90, 0xBF)
  else if c < 0xF4 then (4, 0x80, 0xBF)
  else if c = 0xF4 then (4, 0x80, 0x8F)
  else (0, 0, 0)

/-- A continuation byte, `locb <= c <= hicb`. -/
def isCont (c : Nat) : Bool := 0x80 ≤ c && c ≤ 0xBF

/-- Function `utf8.DecodeRune`: the first rune of `s` and its width in bytes; an invalid or
truncated encoding yields `(RuneError, 1)`, the empty input `(RuneError, 0)`. -/
def decodeRune : Bytes → Nat × Nat
  | [] => (runeError, 0)
  | s0 :: t =>
    match leadInfo s0 with
    | (0, _, _) => (runeError, 1)
    | (1, _, _) => (s0, 1)
    | (sz, lo, hi) =>
      if t.length + 1 < sz then (runeError, 1) else
      match t with
      | [] => (runeError, 1)
      | s1 :: t1 =>
        if s1 < lo || hi < s1 then (runeError, 1)
        else if sz ≤ 2 then ((s0 % 32) * 64 + s1 % 64, 2)
        else
          match t1 with
          | [] => (runeError, 1)
          | s2 :: t2 =>
            if !isCont s2 then (runeError, 1)
            else if sz ≤ 3 then ((s0 % 16) * 4096 + (s1 % 64) * 64 + s2 % 64, 3)
            else
              match t2 with
              | [] => (runeError, 1)
              | s3 :: _ =>
                if !isCont s3 then (runeError, 1)
                else ((s0 % 8) * 262144 + (s1 % 64) * 4096 + (s2 % 64) * 64 + s3 % 64, 4)

/-- Function `utf8.AppendRune`: the UTF-8 encoding of a rune; surrogates and runes beyond
U+10FFFF are encoded as U+FFFD. -/
def encodeRune (r : Nat) : Bytes :=
  if r ≤ 0x7F then [r]
  else if r ≤ 0x7FF then [0xC0 + r / 64, 0x80 + r % 64]
  else if 0x10FFFF < r || (0xD800 ≤ r && r ≤ 0xDFFF) then [0xEF, 0xBF, 0xBD]
  else if r ≤ 0xFFFF then [0xE0 + r / 4096, 0x80 + (r / 64) % 64, 0x80 + r % 64]
  else [0xF0 + r / 262144, 0x80 + (r / 4096) % 64, 0x80 + (r / 64) % 64, 0x80 + r % 64]

/-! ## `strconv.Quote` and `fmt.Errorf` -/

/-- The digit `lowerhex[d]`. -/
def lowerhex (d : Nat) : Nat := if d < 10 then 0x30 + d else 0x61 + (d - 10)

/-- Function `strconv.IsPrint`: Latin-1 is decided inline as in the library, wider runes by
the library's tables, which are taken as the parameter `wide`. -/
def isPrint (wide : Nat → Bool) (r : Nat) : Bool :=
  if r ≤ 0xFF then
    if 0x20 ≤ r && r ≤ 0x7E then true
    else if 0xA1 ≤ r && r ≤ 0xFF then r != 0xAD
    else false
  else wide r

/-- Function `utf8.ValidRune`. -/
def validRune (r : Nat) : Bool := r < 0xD800 || (0xDFFF < r && r ≤ 0x10FFFF)

/-- Four hex digits of `r`, as written after a backslash and `u`. -/
def hex4 (r : Nat) : Bytes :=
  [lowerhex (r / 4096 % 16), lowerhex (r / 256 % 16), lowerhex (r / 16 % 16), lowerhex (r % 16)]

/-- Function `appendEscapedRune` of `strconv` for the double quote, without the ASCII-only
and graphic-only options (the way `strconv.Quote` calls it). -/
def escapedRune (wide : Nat → Bool) (r : Nat) : Bytes :=
  if r = 0x22 || r = 0x5C then [0x5C, r]
  else if isPrint wide r then encodeRune r
  else if r = 7 then ascii "\\a"
  else if r = 8 then ascii "\\b"
  else if r = 12 then ascii "\\f"
  else if r = 10 then ascii "\\n"
  else if r = 13 then ascii "\\r"
  else if r = 9 then ascii "\\t"
  else if r = 11 then ascii "\\v"
  else if r < 0x20 || r = 0x7F then [0x5C, 0x78, lowerhex (r / 16), lowerhex (r % 16)]
  else if !validRune r then [0x5C, 0x75] ++ hex4 runeError
  else if r < 0x10000 then [0x5C, 0x75] ++ hex4 r
  else [0x5C, 0x55] ++ hex4 (r / 65536) ++ hex4 (r % 65536)

/-- The loop of `appendQuotedWith`: `skip` counts the bytes of the current rune that are
still to be passed over. -/
def quoteLoop (wide : Nat → Bool) : Bytes → Nat → Bytes
  | [], _ => []
  | _ :: rest, skip + 1 => quoteLoop wide rest skip
  | c :: rest, 0 =>
    let (r, width) := if c ≥ 0x80 then decodeRune (c :: rest) else (c, 1)
    if width = 1 && r = runeError then
      [0x5C, 0x78, lowerhex (c / 16), lowerhex (c % 16)] ++ quoteLoop wide rest 0
    else
      escapedRune wide r ++ quoteLoop wide rest (width - 1)

/-- Function `strconv.Quote`: a double-quoted Go string literal for `s`. -/
def quote (wide : Nat → Bool) (s : Bytes) : Bytes :=
  [0x22] ++ quoteLoop wide s 0 ++ [0x22]

/-- The message of `fmt.Errorf("got response %s %q", status, body)`: the verb `%s` writes
the status string as it is, the verb `%q` on a byte slice writes `strconv.Quote` of it. -/
def gotResponseMessage (wide : Nat → Bool) (status body : Bytes) : Bytes :=
  ascii "got response " ++ status ++ ascii " " ++ quote wide body

/-! ## Errors -/

/-- Destination types of the JSON decoder: `bool`, `int`, `float64`, `string`,
`interface{}`, `map[string]T` and structs, a struct being the list of its exported fields
with their JSON names.  Slices, arrays and pointer fields are outside the modelled types. -/
inductive GoType where
  | bool
  | int
  | float64
  | string
  | iface
  | map (elem : GoType)
  | struct (fields : List (Bytes × GoType))

/-- What is recorded of an error of `encoding/json`: that it is a syntax error found by the
scanner, or that it is an `UnmarshalTypeError`, with its `Value` text and its `Type`.  The
`Offset` and the `Struct` and `Field` path of the real error, which tell where in the body
the value stood, are not recorded: two errors that are equal here agree in kind, `Value`
and `Type`, and may still differ in those. -/
inductive JsonError where
  | syntaxError
  | unmarshalType (value : Bytes) (type : GoType)

/-- A Go `error` value: one reported by `net/http`, `net` or `io` (kept as its message), the
one built by `fmt.Errorf`, or one returned by `json.Unmarshal`. -/
inductive GoError where
  | lib (msg : Bytes)
  | errorf (msg : Bytes)
  | json (e : JsonError)

/-! ## `time` and `net`: the deadline-enforcing connection -/

/-- Type `time.Duration`: a number of nanoseconds. -/
abbrev Duration := Int

/-- Constant `time.Second`. -/
def Second : Duration := 1000000000

/-- Type `time.Time`: an instant, in nanoseconds. -/
abbrev Time := Int

/-- What a `Read` or `Write` on a connection returns: the byte count, the bytes placed in
the buffer (for a read) and the error. -/
structure IOResult where
  n : Nat
  data : Bytes
  err : Option GoError

/-- The state of an established `net.Conn`: its two deadlines (`none` while unset) and the
rest of the socket. -/
structure Conn (σ : Type) where
  readDeadline : Option Time
  writeDeadline : Option Time
  sock : σ

/-- How the socket transfers data: a read of up to `len` bytes and a write of `b`, each
seeing the current instant and the deadline in force for it. -/
structure ConnOps (σ : Type) where
  read : Time → Option Time → Nat → σ → IOResult × σ
  write : Time → Option Time → Bytes → σ → IOResult × σ

/-- Method `SetReadDeadline` of `net.Conn`. -/
def Conn.SetReadDeadline {σ : Type} (c : Conn σ) (t : Time) : Conn σ :=
  { c with readDeadline := some t }

/-- Method `SetWriteDeadline` of `net.Conn`. -/
def Conn.SetWriteDeadline {σ : Type} (c : Conn σ) (t : Time) : Conn σ :=
  { c with writeDeadline := some t }

/-- Method `Read` of `net.Conn`, at instant `now`, into a buffer of `len` bytes. -/
def Conn.Read {σ : Type} (ops : ConnOps σ) (c : Conn σ) (now : Time) (len : Nat) :
    IOResult × Conn σ :=
  let r := ops.read now c.readDeadline len c.sock
  (r.1, { c with sock := r.2 })

/-- Method `Write` of `net.Conn`, at instant `now`. -/
def Conn.Write {σ : Type} (ops : ConnOps σ) (c : Conn σ) (now : Time) (b : Bytes) :
    IOResult × Conn σ :=
  let r := ops.write now c.writeDeadline b c.sock
  (r.1, { c with sock := r.2 })

/-- Type `deadlinedConn`: a connection with the timeout applied before each read and
write. -/
structure deadlinedConn (σ : Type) where
  Timeout : Duration
  Conn : Conn σ

/-- Method `(*deadlinedConn).Read`; `now` is what `time.Now()` returns. -/
def deadlinedConn.Read {σ : Type} (ops : ConnOps σ) (c : deadlinedConn σ) (now : Time)
    (len : Nat) : IOResult × deadlinedConn σ :=
  let conn := c.Conn.SetReadDeadline (now + c.Timeout)
  let r := conn.Read ops now len
  (r.1, { c with Conn := r.2 })

/-- Method `(*deadlinedConn).Write`; `now` is what `time.Now()` returns. -/
def deadlinedConn.Write {σ : Type} (ops : ConnOps σ) (c : deadlinedConn σ) (now : Time)
    (b : Bytes) : IOResult × deadlinedConn σ :=
  let conn := c.Conn.SetWriteDeadline (now + c.Timeout)
  let r := conn.Write ops now b
  (r.1, { c with Conn := r.2 })

/-- Type `http.Transport`, reduced to its `Dial` field. -/
structure Transport (σ : Type) where
  Dial : Bytes → Bytes → Except GoError (deadlinedConn σ)

/-- Function `newDeadlineTransport`; `dialTimeout` is `net.DialTimeout`. -/
def newDeadlineTransport {σ : Type}
    (dialTimeout : Bytes → Bytes → Duration → Except GoError (Conn σ))
    (timeout : Duration) : Transport σ :=
  { Dial := fun netw addr =>
      match dialTimeout netw addr timeout with
      | .error err => .error err
      | .ok c => .ok { Timeout := timeout, Conn := c } }

/-! ## `net/http` -/

/-- Function `validHeaderFieldByte` of `net/textproto`: the bytes of an HTTP token. -/
def validHeaderFieldByte (c : Nat) : Bool :=
  (0x30 ≤ c && c ≤ 0x39) || (0x41 ≤ c && c ≤ 0x5A) || (0x61 ≤ c && c ≤ 0x7A) ||
  [0x21, 0x23, 0x24, 0x25, 0x26, 0x27, 0x2A, 0x2B, 0x2D, 0x2E, 0x5E, 0x5F, 0x60, 0x7C,
    0x7E].contains c

/-- The rewriting loop of `canonicalMIMEHeaderKey`: a letter is upper case at the start and
after a dash, lower case elsewhere. -/
def canonLoop : Bytes → Bool → Bytes
  | [], _ => []
  | c :: rest, upper =>
    let c1 :=
      if upper && 0x61 ≤ c && c ≤ 0x7A then c - 32
      else if !upper && 0x41 ≤ c && c ≤ 0x5A then c + 32
      else c
    c1 :: canonLoop rest (c1 == 0x2D)

/-- Function `textproto.CanonicalMIMEHeaderKey`: a key with a byte outside the token bytes
is returned unchanged. -/
def CanonicalMIMEHeaderKey (s : Bytes) : Bytes :=
  if s.all validHeaderFieldByte then canonLoop s true else s

/-- Type `http.Header`: the values of each (canonical) key, in order. -/
abbrev Header := List (Bytes × List Bytes)

/-- The values stored under a key of the map. -/
def Header.values (h : Header) (key : Bytes) : List Bytes :=
  match h.find? (fun kv => kv.1 == key) with
  | some kv => kv.2
  | none => []

/-- Method `Header.Get`: the first value under the canonical form of `key`, or the empty
string. -/
def Header.Get (h : Header) (key : Bytes) : Bytes :=
  match Header.values h (CanonicalMIMEHeaderKey key) with
  | [] => []
  | v :: _ => v

/-- Storing `vs` under `key`, replacing the entry of that key when there is one. -/
def Header.set : Header → Bytes → List Bytes → Header
  | [], key, vs => [(key, vs)]
  | (k, old) :: rest, key, vs =>
    if k == key then (k, vs) :: rest else (k, old) :: Header.set rest key vs

/-- Method `Header.Add`: appends `value` to the values under the canonical form of `key`. -/
def Header.Add (h : Header) (key value : Bytes) : Header :=
  let k := CanonicalMIMEHeaderKey key
  Header.set h k (Header.values h k ++ [value])

/-- Type `url.URL`: a parsed URL, kept as the text it is rendered to. -/
abbrev URL := Bytes

/-- Type `http.Request`: the method, the parsed URL, the headers, and the body (`none` for
a nil reader, otherwise the bytes the reader yields). -/
structure Request where
  Method : Bytes
  URL : URL
  Header : Header
  Body : Option Bytes

/-- Function `validMethod` of `net/http`: a method is a non-empty sequence of token
bytes. -/
def validMethod (method : Bytes) : Bool := !method.isEmpty && method.all validHeaderFieldByte

/-- Type `http.Response` once `ioutil.ReadAll` has run on its body: the status line text,
the status code, the headers, the bytes read and the error of the read. -/
structure Response where
  Status : Bytes
  StatusCode : Int
  Header : Header
  Body : Bytes
  BodyErr : Option GoError

/-- Type `http.Client`. -/
structure Client (σ : Type) where
  Transport : Transport σ

/-! ## `encoding/json`: the scanner -/

/-- A JSON document as the decoder walks it: numbers keep their literal text, strings are
unquoted, object members keep their order and their duplicates. -/
inductive JSON where
  | null
  | bool (b : Bool)
  | num (lit : Bytes)
  | str (s : Bytes)
  | arr (items : List JSON)
  | obj (members : List (Bytes × JSON))

/-- A decimal digit. -/
def isDigit (c : Nat) : Bool := 0x30 ≤ c && c ≤ 0x39

/-- The exponent of a number after its `e` or `E`: an optional sign and at least one
digit. -/
def validExp : Bytes → Bool
  | [] => false
  | c :: rest =>
    let ds := if c = 0x2B || c = 0x2D then rest else c :: rest
    !ds.isEmpty && ds.all isDigit

/-- What may follow the integer part of a number: nothing, a fraction, an exponent, or
both. -/
def validFracExp : Bytes → Bool
  | [] => true
  | c :: rest =>
    if c = 0x2E then
      let ds := rest.takeWhile isDigit
      !ds.isEmpty &&
        (match rest.dropWhile isDigit with
         | [] => true
         | e :: ex => (e = 0x65 || e = 0x45) && validExp ex)
    else (c = 0x65 || c = 0x45) && validExp rest

/-- An unsigned JSON number: `0` or a digit sequence without leading zero, then
`validFracExp`. -/
def validUnsigned : Bytes → Bool
  | [] => false
  | c :: rest =>
    if c = 0x30 then validFracExp rest
    else 0x31 ≤ c && c ≤ 0x39 && validFracExp (rest.dropWhile isDigit)

/-- The number grammar of the scanner. -/
def validNumber : Bytes → Bool
  | [] => false
  | c :: rest => if c = 0x2D then validUnsigned rest else validUnsigned (c :: rest)

/-- The value of a hex digit. -/
def hexVal (c : Nat) : Option Nat :=
  if isDigit c then some (c - 0x30)
  else if 0x61 ≤ c && c ≤ 0x66 then some (c - 0x61 + 10)
  else if 0x41 ≤ c && c ≤ 0x46 then some (c - 0x41 + 10)
  else none

/-- Function `getu4`: the rune of a `\uXXXX` escape at the start of `s`. -/
def getu4 : Bytes → Option Nat
  | 0x5C :: 0x75 :: a :: b :: c :: d :: _ =>
    match hexVal a, hexVal b, hexVal c, hexVal d with
    | some a, some b, some c, some d => some (((a * 16 + b) * 16 + c) * 16 + d)
    | _, _, _, _ => none
  | _ => none

/-- The byte a one-letter escape stands for. -/
def simpleEscape (e : Nat) : Option Nat :=
  if e = 0x22 || e = 0x5C || e = 0x2F then some e
  else if e = 0x62 then some 8
  else if e = 0x66 then some 12
  else if e = 0x6E then some 10
  else if e = 0x72 then some 13
  else if e = 0x74 then some 9
  else none

/-- Function `utf16.DecodeRune` on the runes of two `\u` escapes, the second possibly
missing. -/
def decodeSurrogates (r1 : Nat) (r2 : Option Nat) : Nat :=
  match r2 with
  | some r2 =>
    if 0xD800 ≤ r1 && r1 < 0xDC00 && 0xDC00 ≤ r2 && r2 < 0xE000 then
      (r1 - 0xD800) * 1024 + (r2 - 0xDC00) + 0x10000
    else runeError
  | none => runeError

/-- The loop of `unquoteBytes` over the text between the quotes: escapes are resolved and
ill-formed UTF-8 is coerced to U+FFFD; `skip` counts bytes already consumed. -/
def unquoteLoop : Bytes → Nat → Option Bytes
  | [], _ => some []
  | _ :: rest, skip + 1 => unquoteLoop rest skip
  | c :: rest, 0 =>
    if c = 0x5C then
      match rest with
      | [] => none
      | e :: _ =>
        if e = 0x75 then
          match getu4 (c :: rest) with
          | none => none
          | some rr =>
            if 0xD800 ≤ rr && rr < 0xE000 then
              let dec := decodeSurrogates rr (getu4 (rest.drop 5))
              if dec != runeError then (encodeRune dec ++ ·) <$> unquoteLoop rest 11
              else (encodeRune runeError ++ ·) <$> unquoteLoop rest 5
            else (encodeRune rr ++ ·) <$> unquoteLoop rest 5
        else
          match simpleEscape e with
          | none => none
          | some b => (b :: ·) <$> unquoteLoop rest 1
    else if c = 0x22 || c < 0x20 then none
    else if c < 0x80 then (c :: ·) <$> unquoteLoop rest 0
    else
      let d := decodeRune (c :: rest)
      (encodeRune d.1 ++ ·) <$> unquoteLoop rest (d.2 - 1)

/-- Function `unquote` of `encoding/json`, on the text between the quotes. -/
def unquote (raw : Bytes) : Option Bytes := unquoteLoop raw 0

/-- The tokens of a JSON text. -/
inductive Tok where
  | lbrace | rbrace | lbrack | rbrack | colon | comma
  | lit (v : JSON)

/-- Where the scanner is between two bytes: between tokens, inside a string (with the raw
text so far, reversed, and whether a backslash is pending), inside a number or inside a
literal name (with the text so far, reversed). -/
inductive LexMode where
  | idle
  | inString (acc : Bytes) (esc : Bool)
  | inNumber (acc : Bytes)
  | inWord (acc : Bytes)

/-- The token a finished number is, when it follows the number grammar. -/
def numberTok (acc : Bytes) : Option Tok :=
  if validNumber acc.reverse then some (.lit (.num acc.reverse)) else none

/-- The token a finished literal name is. -/
def wordTok (acc : Bytes) : Option Tok :=
  if acc.reverse = ascii "true" then some (.lit (.bool true))
  else if acc.reverse = ascii "false" then some (.lit (.bool false))
  else if acc.reverse = ascii "null" then some (.lit .null)
  else none

/-- A byte seen between tokens. -/
def lexIdle (toks : List Tok) (c : Nat) : Option (LexMode × List Tok) :=
  if c = 0x20 || c = 0x09 || c = 0x0A || c = 0x0D then some (.idle, toks)
  else if c = 0x7B then some (.idle, .lbrace :: toks)
  else if c = 0x7D then some (.idle, .rbrace :: toks)
  else if c = 0x5B then some (.idle, .lbrack :: toks)
  else if c = 0x5D then some (.idle, .rbrack :: toks)
  else if c = 0x3A then some (.idle, .colon :: toks)
  else if c = 0x2C then some (.idle, .comma :: toks)
  else if c = 0x22 then some (.inString [] false, toks)
  else if c = 0x2D || isDigit c then some (.inNumber [c], toks)
  else if 0x61 ≤ c && c ≤ 0x7A then some (.inWord [c], toks)
  else none

/-- One byte of the scan; the tokens are collected in reverse. -/
def lexStep (st : LexMode × List Tok) (c : Nat) : Option (LexMode × List Tok) :=
  match st with
  | (.idle, toks) => lexIdle toks c
  | (.inString acc esc, toks) =>
    if esc then some (.inString (c :: acc) false, toks)
    else if c = 0x5C then some (.inString (c :: acc) true, toks)
    else if c = 0x22 then
      match unquote acc.reverse with
      | some s => some (.idle, .lit (.str s) :: toks)
      | none => none
    else if c < 0x20 then none
    else some (.inString (c :: acc) false, toks)
  | (.inNumber acc, toks) =>
    if isDigit c || c = 0x2E || c = 0x65 || c = 0x45 || c = 0x2B || c = 0x2D then
      some (.inNumber (c :: acc), toks)
    else
      match numberTok acc with
      | some t => lexIdle (t :: toks) c
      | none => none
  | (.inWord acc, toks) =>
    if 0x61 ≤ c && c ≤ 0x7A then some (.inWord (c :: acc), toks)
    else
      match wordTok acc with
      | some t => lexIdle (t :: toks) c
      | none => none

/-- The scan of a whole text. -/
def lexLoop : Bytes → LexMode × List Tok → Option (LexMode × List Tok)
  | [], st => some st
  | c :: rest, st =>
    match lexStep st c with
    | some st1 => lexLoop rest st1
    | none => none

/-- The tokens of a text, or `none` when a token is ill-formed. -/
def lex (data : Bytes) : Option (List Tok) :=
  match lexLoop data (.idle, []) with
  | some (.idle, toks) => some toks.reverse
  | some (.inNumber acc, toks) => (fun t => (t :: toks).reverse) <$> numberTok acc
  | some (.inWord acc, toks) => (fun t => (t :: toks).reverse) <$> wordTok acc
  | some (.inString _ _, _) => none
  | none => none

/-- An open array or object on the parse stack, its items or members collected in reverse;
an object also holds the key whose value is being read. -/
inductive Frame where
  | arr (items : List JSON)
  | obj (members : List (Bytes × JSON)) (key : Option Bytes)

/-- What the parser expects next. -/
inductive Phase where
  | beginValue
  | beginValueOrEnd
  | beginKeyOrEnd
  | beginKey
  | colon
  | endValue
  | done (v : JSON)

/-- A completed value goes to the innermost open container, or ends the document. -/
def completeValue (v : JSON) : List Frame → Option (List Frame × Phase)
  | [] => some ([], .done v)
  | .arr items :: st => some (.arr (v :: items) :: st, .endValue)
  | .obj ms (some k) :: st => some (.obj ((k, v) :: ms) none :: st, .endValue)
  | .obj _ none :: _ => none

/-- Constant `maxNestingDepth` of the scanner. -/
def maxNestingDepth : Nat := 10000

/-- A token where a value may start; an array or object may be opened only while fewer
than `limit` are open (the scanner's `exceeded max depth` error otherwise). -/
def parseValueTok (limit : Nat) (stack : List Frame) (t : Tok) :
    Option (List Frame × Phase) :=
  match t with
  | .lit v => completeValue v stack
  | .lbrack => if stack.length < limit then some (.arr [] :: stack, .beginValueOrEnd) else none
  | .lbrace => if stack.length < limit then some (.obj [] none :: stack, .beginKeyOrEnd) else none
  | _ => none

/-- A token where an object key is expected. -/
def parseKeyTok (stack : List Frame) (t : Tok) : Option (List Frame × Phase) :=
  match t, stack with
  | .lit (.str k), .obj ms none :: st => some (.obj ms (some k) :: st, .colon)
  | _, _ => none

/-- One token of the parse. -/
def parseStep (limit : Nat) (st : List Frame × Phase) (t : Tok) :
    Option (List Frame × Phase) :=
  match st.2 with
  | .beginValue => parseValueTok limit st.1 t
  | .beginValueOrEnd =>
    match t, st.1 with
    | .rbrack, .arr _ :: rest => completeValue (.arr []) rest
    | _, _ => parseValueTok limit st.1 t
  | .beginKeyOrEnd =>
    match t, st.1 with
    | .rbrace, .obj _ none :: rest => completeValue (.obj []) rest
    | _, _ => parseKeyTok st.1 t
  | .beginKey => parseKeyTok st.1 t
  | .colon =>
    match t with
    | .colon => some (st.1, .beginValue)
    | _ => none
  | .endValue =>
    match t, st.1 with
    | .comma, .arr items :: rest => some (.arr items :: rest, .beginValue)
    | .comma, .obj ms none :: rest => some (.obj ms none :: rest, .beginKey)
    | .rbrack, .arr items :: rest => completeValue (.arr items.reverse) rest
    | .rbrace, .obj ms none :: rest => completeValue (.obj ms.reverse) rest
    | _, _ => none
  | .done _ => none

/-- The parse of a token sequence. -/
def parseLoop (limit : Nat) : List Tok → List Frame × Phase → Option (List Frame × Phase)
  | [], st => some st
  | t :: rest, st =>
    match parseStep limit st t with
    | some st1 => parseLoop limit rest st1
    | none => none

/-- The document a text holds when at most `limit` arrays and objects may be open at a
time: exactly one JSON value, with white space around it. -/
def parseLimited (limit : Nat) (data : Bytes) : Option JSON :=
  match lex data with
  | none => none
  | some toks =>
    match parseLoop limit toks ([], .beginValue) with
    | some ([], .done v) => some v
    | _ => none

/-- The document a text holds for `encoding/json`, which refuses documents nested deeper
than `maxNestingDepth`; `none` is the scanner's syntax error (`checkValid` failing). -/
def parseJSON (data : Bytes) : Option JSON := parseLimited maxNestingDepth data

/-! ## `encoding/json`: decoding into Go values -/

/-- Go values of the modelled types.  A `float64` is kept as the number literal that
`strconv.ParseFloat` turned into it; `nil` is the nil interface and the nil map; `list` is
the `[]interface{}` an interface holds for a JSON array; a map is the list of its entries
(distinct keys); a struct is the list of its field values in declaration order. -/
inductive GoVal where
  | bool (b : Bool)
  | int (n : Int)
  | float (lit : Bytes)
  | str (s : Bytes)
  | nil
  | list (items : List GoVal)
  | map (entries : List (Bytes × GoVal))
  | struct (fields : List GoVal)

mutual
/-- The zero value of a type. -/
def zeroValue : GoType → GoVal
  | .bool => .bool false
  | .int => .int 0
  | .float64 => .float (ascii "0")
  | .string => .str []
  | .iface => .nil
  | .map _ => .nil
  | .struct fs => .struct (zeroFields fs)
/-- The zero values of the fields of a struct. -/
def zeroFields : List (Bytes × GoType) → List GoVal
  | [] => []
  | (_, t) :: rest => zeroValue t :: zeroFields rest
end

/-- The first error wins (`saveError` keeps the error it already has). -/
def firstError (a b : Option JsonError) : Option JsonError :=
  match a with
  | some e => some e
  | none => b

/-- The `Value` text of an `UnmarshalTypeError` for a JSON value of the wrong kind. -/
def valueDesc : JSON → Bytes
  | .null => ascii "null"
  | .bool _ => ascii "bool"
  | .num _ => ascii "number"
  | .str _ => ascii "string"
  | .arr _ => ascii "array"
  | .obj _ => ascii "object"

/-- The number a digit sequence denotes. -/
def digitsVal (ds : Bytes) : Nat := ds.foldl (fun acc c => acc * 10 + (c - 0x30)) 0

/-- Function `strconv.ParseInt(s, 10, 64)` followed by the overflow check for `int`
(64 bits): the integer a number literal denotes, when it is written as an integer and fits
in 64 bits. -/
def parseInt (lit : Bytes) : Option Int :=
  let neg := lit.head? == some 0x2D
  let ds := if neg then lit.drop 1 else lit
  if ds.isEmpty || !ds.all isDigit then none
  else
    let n : Int := digitsVal ds
    let v : Int := if neg then -n else n
    if -9223372036854775808 ≤ v && v ≤ 9223372036854775807 then some v else none

/-- Whether `strconv.ParseFloat(s, 64)` reports a range error for a JSON number literal:
its magnitude is at least 2^1024 - 2^970, the least real that rounds to infinity. -/
def floatRangeError (lit : Bytes) : Bool :=
  let u := if lit.head? == some 0x2D then lit.drop 1 else lit
  let ip := u.takeWhile isDigit
  let r1 := u.dropWhile isDigit
  let fp := if r1.head? == some 0x2E then (r1.drop 1).takeWhile isDigit else []
  let r2 := if r1.head? == some 0x2E then (r1.drop 1).dropWhile isDigit else r1
  let ex := r2.drop 1
  let eneg := ex.head? == some 0x2D
  let eds := if ex.head? == some 0x2D || ex.head? == some 0x2B then ex.drop 1 else ex
  let e : Int := if eneg then -(digitsVal eds : Int) else digitsVal eds
  let m := digitsVal (ip ++ fp)
  let e10 : Int := e - fp.length
  let bound := 2 ^ 1024 - 2 ^ 970
  if m = 0 then false
  else if 0 ≤ e10 then decide (bound ≤ m * 10 ^ e10.toNat)
  else decide (bound * 10 ^ (-e10).toNat ≤ m)

/-- Storing a value under a key of a map. -/
def mapSet : List (Bytes × GoVal) → Bytes → GoVal → List (Bytes × GoVal)
  | [], k, v => [(k, v)]
  | (k1, v1) :: rest, k, v =>
    if k1 == k then (k1, v) :: rest else (k1, v1) :: mapSet rest k v

mutual
/-- Function `valueInterface`: the value an empty interface receives for a JSON value, and
the error saved on the way (a number out of the `float64` range leaves nil). -/
def valueInterface : JSON → GoVal × Option JsonError
  | .null => (.nil, none)
  | .bool b => (.bool b, none)
  | .num lit =>
    if floatRangeError lit then
      (.nil, some (.unmarshalType (ascii "number " ++ lit) .float64))
    else (.float lit, none)
  | .str s => (.str s, none)
  | .arr items =>
    let r := arrayInterface items
    (.list r.1, r.2)
  | .obj members =>
    let r := objectInterface members []
    (.map r.1, r.2)
/-- Function `arrayInterface`. -/
def arrayInterface : List JSON → List GoVal × Option JsonError
  | [] => ([], none)
  | x :: rest =>
    let a := valueInterface x
    let b := arrayInterface rest
    (a.1 :: b.1, firstError a.2 b.2)
/-- Function `objectInterface`: a later member replaces an earlier one of the same key. -/
def objectInterface : List (Bytes × JSON) → List (Bytes × GoVal) →
    List (Bytes × GoVal) × Option JsonError
  | [], acc => (acc, none)
  | (k, x) :: rest, acc =>
    let a := valueInterface x
    let b := objectInterface rest (mapSet acc k a.1)
    (b.1, firstError a.2 b.2)
end

/-- Upper-casing an ASCII letter. -/
def foldByte (c : Nat) : Nat := if 0x61 ≤ c && c ≤ 0x7A then c - 32 else c

/-- Function `foldName`: the key under which names are compared without regard to case.
For the ASCII field names of the modelled structs the only runes outside ASCII that fold
to a letter are the Kelvin sign (to `K`) and the long s (to `S`). -/
def foldName : Bytes → Bytes
  | [] => []
  | 0xE2 :: 0x84 :: 0xAA :: rest => 0x4B :: foldName rest
  | 0xC5 :: 0xBF :: rest => 0x53 :: foldName rest
  | c :: rest => foldByte c :: foldName rest

/-- The struct field an object key selects: the field of exactly that name, otherwise the
first field whose name matches without regard to case. -/
def fieldIndex (names : List Bytes) (key : Bytes) : Option Nat :=
  match names.findIdx? (fun n => n == key) with
  | some i => some i
  | none => names.findIdx? (fun n => foldName n == foldName key)

/-- The member loop of `object` for a map: each value is decoded into a fresh zero element,
which is then stored under its key. -/
def objectMap (decodeElem : JSON → GoVal × Option JsonError) :
    List (Bytes × JSON) → List (Bytes × GoVal) → List (Bytes × GoVal) × Option JsonError
  | [], entries => (entries, none)
  | (k, x) :: rest, entries =>
    let a := decodeElem x
    let b := objectMap decodeElem rest (mapSet entries k a.1)
    (b.1, firstError a.2 b.2)

/-- The member loop of `object` for a struct: a member whose key selects a field is decoded
into that field, any other member is skipped. -/
def objectStruct (decodeAt : Nat → JSON → List GoVal → List GoVal × Option JsonError)
    (names : List Bytes) : List (Bytes × JSON) → List GoVal → List GoVal × Option JsonError
  | [], vals => (vals, none)
  | (k, x) :: rest, vals =>
    match fieldIndex names k with
    | none => objectStruct decodeAt names rest vals
    | some i =>
      let a := decodeAt i x vals
      let b := objectStruct decodeAt names rest a.1
      (b.1, firstError a.2 b.2)

mutual
/-- Method `(*decodeState).value` on a settable variable of type `t` holding `cur`: the
value the variable holds afterwards and the error saved.  `null` clears an interface and
a map and leaves every other variable alone; a JSON value of the wrong kind, and a number
that does not fit the variable, leave the variable alone and save an
`UnmarshalTypeError`; decoding goes on after such an error. -/
def decode : GoType → JSON → GoVal → GoVal × Option JsonError
  | .bool, j, cur =>
    match j with
    | .null => (cur, none)
    | .bool b => (.bool b, none)
    | _ => (cur, some (.unmarshalType (valueDesc j) .bool))
  | .int, j, cur =>
    match j with
    | .null => (cur, none)
    | .num lit =>
      match parseInt lit with
      | some n => (.int n, none)
      | none => (cur, some (.unmarshalType (ascii "number " ++ lit) .int))
    | _ => (cur, some (.unmarshalType (valueDesc j) .int))
  | .float64, j, cur =>
    match j with
    | .null => (cur, none)
    | .num lit =>
      if floatRangeError lit then
        (cur, some (.unmarshalType (ascii "number " ++ lit) .float64))
      else (.float lit, none)
    | _ => (cur, some (.unmarshalType (valueDesc j) .float64))
  | .string, j, cur =>
    match j with
    | .null => (cur, none)
    | .str s => (.str s, none)
    | _ => (cur, some (.unmarshalType (valueDesc j) .string))
  | .iface, j, cur =>
    match j with
    | .num lit =>
      if floatRangeError lit then
        (cur, some (.unmarshalType (ascii "number " ++ lit) .float64))
      else (.float lit, none)
    | _ => valueInterface j
  | .map e, j, cur =>
    match j with
    | .null => (.nil, none)
    | .obj members =>
      let entries := match cur with
        | .map es => es
        | _ => []
      let r := objectMap (fun x => decode e x (zeroValue e)) members entries
      (.map r.1, r.2)
    | _ => (cur, some (.unmarshalType (valueDesc j) (.map e)))
  | .struct fs, j, cur =>
    match j with
    | .null => (cur, none)
    | .obj members =>
      let vals := match cur with
        | .struct vs => vs
        | _ => zeroFields fs
      let r := objectStruct (fun i x vs => decodeField fs i x vs) (fs.map Prod.fst) members vals
      (.struct r.1, r.2)
    | _ => (cur, some (.unmarshalType (valueDesc j) (.struct fs)))
/-- Decoding into the `i`-th field of a struct with the given fields and field values. -/
def decodeField : List (Bytes × GoType) → Nat → JSON → List GoVal →
    List GoVal × Option JsonError
  | (_, t) :: _, 0, x, v :: vs =>
    let r := decode t x v
    (r.1 :: vs, r.2)
  | _ :: fs, i + 1, x, v :: vs =>
    let r := decodeField fs i x vs
    (v :: r.1, r.2)
  | _, _, _, vs => (vs, none)
end

/-- Function `json.Unmarshal(data, ret)` for `ret` a non-nil pointer to a variable of type
`t` holding `cur`: the variable afterwards and the error returned.  A syntax error is
reported before anything is stored. -/
def Unmarshal (t : GoType) (data : Bytes) (cur : GoVal) : GoVal × Option JsonError :=
  match parseJSON data with
  | none => (cur, some .syntaxError)
  | some j => decode t j cur

/-! ## `wrappedResp` -/

/-- Type `wrappedResp` as the decoder sees it. -/
def wrappedRespType : GoType :=
  .struct [(ascii "status_txt", .string), (ascii "status_code", .int), (ascii "data", .iface)]

/-- The JSON names of the fields of `wrappedResp`. -/
def wrappedRespNames : List Bytes := [ascii "status_txt", ascii "status_code", ascii "data"]

/-- The member loop of `object` on `&wrappedResp{Data: ret}` while `Data` still holds the
pointer `ret` to a variable of type `t`; `status` and `code` are the fields `Status` and
`StatusCode`, `dest` is the variable.  A member selecting `Data` is decoded through the
pointer into the variable, except `null`, which sets `Data` itself to nil: from there on
the variable is out of reach and the remaining members are decoded into the struct with
its `Data` an ordinary nil interface. -/
def wrappedMembers (t : GoType) :
    List (Bytes × JSON) → GoVal → GoVal → GoVal → GoVal × Option JsonError
  | [], _, _, dest => (dest, none)
  | (k, x) :: rest, status, code, dest =>
    match fieldIndex wrappedRespNames k with
    | none => wrappedMembers t rest status code dest
    | some 0 =>
      let a := decode .string x status
      let b := wrappedMembers t rest a.1 code dest
      (b.1, firstError a.2 b.2)
    | some 1 =>
      let a := decode .int x code
      let b := wrappedMembers t rest status a.1 dest
      (b.1, firstError a.2 b.2)
    | some _ =>
      match x with
      | .null => (dest, (decode wrappedRespType (.obj rest) (.struct [status, code, .nil])).2)
      | _ =>
        let a := decode t x dest
        let b := wrappedMembers t rest status code a.1
        (b.1, firstError a.2 b.2)

/-- Function `json.Unmarshal(data, wResp)` for `wResp := &wrappedResp{Data: ret}`, `ret` a
non-nil pointer to a variable of type `t` holding `dest`: that variable afterwards and the
error returned. -/
def UnmarshalWrapped (t : GoType) (data : Bytes) (dest : GoVal) : GoVal × Option JsonError :=
  match parseJSON data with
  | none => (dest, some .syntaxError)
  | some j =>
    match j with
    | .null => (dest, none)
    | .obj members => wrappedMembers t members (.str []) (.int 0) dest
    | _ => (dest, some (.unmarshalType (valueDesc j) wrappedRespType))

/-! ## `apiRequestNegotiateV1` -/

/-- What the Go runtime and the network decide: the printable-rune tables of `strconv`
above U+00FF, `net.DialTimeout`, the URL that `http.NewRequest` stores for an endpoint
(`url.Parse`, then the removal of an empty port) or the error of the parse, and
`(*http.Client).Do` together with the `ioutil.ReadAll` of the response body. -/
structure Env (σ : Type) where
  isPrintWide : Nat → Bool
  dialTimeout : Bytes → Bytes → Duration → Except GoError (Conn σ)
  urlParse : Bytes → Except GoError URL
  Do : Client σ → Request → Except GoError Response

/-- Function `http.NewRequest`: an empty method stands for `GET`; a method that is not a
token is refused with `net/http: invalid method` and the quoted method; then the URL is
parsed, and a parse error is returned as it is.  The request has that method, the parsed
URL, the given body and no header yet. -/
def NewRequest {σ : Type} (env : Env σ) (method url : Bytes) (body : Option Bytes) :
    Except GoError Request :=
  let method := if method.length = 0 then ascii "GET" else method
  if !validMethod method then
    .error (.errorf (ascii "net/http: invalid method " ++ quote env.isPrintWide method))
  else
    match env.urlParse url with
    | .error err => .error err
    | .ok u => .ok { Method := method, URL := u, Header := [], Body := body }

/-- The calls a run makes that reach outside the function: sending a request with
`httpclient.Do`, closing the response body, and invoking `json.Unmarshal`. -/
inductive Event where
  | send (req : Request)
  | closeBody
  | unmarshal

/-- What a call leaves behind: the error returned (`none` for nil), the variable `ret`
points to, and the calls made, in order. -/
structure Outcome where
  err : Option GoError
  dest : GoVal
  events : List Event

/-- Function `apiRequestNegotiateV1(method, endpoint, body, ret)`, for `ret` a non-nil
pointer to a variable of type `t` that holds `dest`. -/
def apiRequestNegotiateV1 {σ : Type} (env : Env σ) (method endpoint : Bytes)
    (body : Option Bytes) (t : GoType) (dest : GoVal) : Outcome :=
  let httpclient : Client σ := { Transport := newDeadlineTransport env.dialTimeout (2 * Second) }
  match NewRequest env method endpoint body with
  | .error err => { err := some err, dest := dest, events := [] }
  | .ok req0 =>
    let req : Request :=
      { req0 with
        Header := req0.Header.Add (ascii "Accept") (ascii "application/vnd.nsq; version=1.0") }
    match env.Do httpclient req with
    | .error err => { err := some err, dest := dest, events := [.send req] }
    | .ok resp =>
      match resp.BodyErr with
      | some err => { err := some err, dest := dest, events := [.send req, .closeBody] }
      | none =>
        if resp.StatusCode ≠ 200 then
          { err := some (.errorf (gotResponseMessage env.isPrintWide resp.Status resp.Body)),
            dest := dest, events := [.send req, .closeBody] }
        else
          let respBody := if resp.Body.length = 0 then ascii "\x7b\x7d" else resp.Body
          if resp.Header.Get (ascii "X-NSQ-Content-Type") = ascii "nsq; version=1.0" then
            let r := Unmarshal t respBody dest
            { err := r.2.map .json, dest := r.1, events := [.send req, .closeBody, .unmarshal] }
          else
            let r := UnmarshalWrapped t respBody dest
            { err := r.2.map .json, dest := r.1, events := [.send req, .closeBody, .unmarshal] }

/-! ## Vocabulary for the statements -/

/-- The client every call builds. -/
def theClient {σ : Type} (env : Env σ) : Client σ :=
  { Transport := newDeadlineTransport env.dialTimeout (2 * Second) }

/-- The request a call hands to `httpclient.Do` once `http.NewRequest` has built `req0`. -/
def withAccept (req0 : Request) : Request :=
  { req0 with
    Header := req0.Header.Add (ascii "Accept") (ascii "application/vnd.nsq; version=1.0") }

/-- The exchange for `method`, `endpoint` and `body` goes through and is answered by
`resp`, whose whole body could be read. -/
def Answers {σ : Type} (env : Env σ) (method endpoint : Bytes) (body : Option Bytes)
    (resp : Response) : Prop :=
  ∃ req0, NewRequest env method endpoint body = .ok req0 ∧
    env.Do (theClient env) (withAccept req0) = .ok resp ∧
    resp.BodyErr = none

/-- An environment in which every URL parses to itself and every request is answered by
`resp`. -/
def serving (resp : Response) : Env Unit :=
  { isPrintWide := fun _ => false
    dialTimeout := fun _ _ _ => .ok { readDeadline := none, writeDeadline := none, sock := () }
    urlParse := fun u => .ok u
    Do := fun _ _ => .ok resp }

/-- What a caller reads off an error without regard to positions in the body: the message
of an error of `net/http`, `net`, `io` or `fmt`; that an error of `encoding/json` is a
syntax error; or the `Value` and `Type` of an `UnmarshalTypeError`. -/
inductive ErrorShape where
  | message (msg : Bytes)
  | syntaxError
  | typeError (value : Bytes) (type : GoType)

/-- The shape of an error. -/
def GoError.shape : GoError → ErrorShape
  | .lib msg => .message msg
  | .errorf msg => .message msg
  | .json .syntaxError => .syntaxError
  | .json (.unmarshalType value type) => .typeError value type

/-- Two returned errors that are both nil or have the same shape.  The `Offset` and the
`Struct` and `Field` path of an `UnmarshalTypeError` depend on where the value stands in
the body and are outside the comparison. -/
def sameErrorUpToPosition (a b : Option GoError) : Prop :=
  a.map GoError.shape = b.map GoError.shape

/-- The requests among the calls of a run. -/
def sentRequests : List Event → List Request
  | [] => []
  | .send r :: rest => r :: sentRequests rest
  | _ :: rest => sentRequests rest

/-- Whether the decoder was invoked in a run. -/
def decoderInvoked : List Event → Bool
  | [] => false
  | .unmarshal :: _ => true
  | _ :: rest => decoderInvoked rest

/-- A body in which `strconv.Quote` escapes nothing: printable ASCII other than the double
quote and the backslash. -/
def plainText (b : Bytes) : Bool :=
  b.all (fun c => 0x20 ≤ c && c ≤ 0x7E && c != 0x22 && c != 0x5C)

/-- The discriminator header value `nsq; version=1.0`. -/
def nsqV1 : Bytes := ascii "nsq; version=1.0"

/-- The envelope document with the given status text, status code and payload. -/
def envelope (statusTxt statusCode data : JSON) : JSON :=
  .obj [(ascii "status_txt", statusTxt), (ascii "status_code", statusCode), (ascii "data", data)]

/-! ## Sample exchanges -/

/-- A 404 answer whose body is the JSON string `"not found"`, quotes included. -/
def notFoundQuoted : Response :=
  { Status := ascii "404 Not Found", StatusCode := 404, Header := [],
    Body := ascii "\"not found\"", BodyErr := none }

/-- A 404 answer whose body is the plain text `not found`. -/
def notFoundPlain : Response :=
  { Status := ascii "404 Not Found", StatusCode := 404, Header := [],
    Body := ascii "not found", BodyErr := none }

/-- A 200 answer without headers whose body is `{}`. -/
def emptyObjectAnswer : Response :=
  { Status := ascii "200 OK", StatusCode := 200, Header := [], Body := ascii "\x7b\x7d",
    BodyErr := none }

/-- A 200 answer without headers and with an empty body. -/
def emptyBodyAnswer : Response :=
  { Status := ascii "200 OK", StatusCode := 200, Header := [], Body := [], BodyErr := none }

/-- A 200 answer with the discriminator header and the body `{"field":"x"}`. -/
def directAnswer : Response :=
  { Status := ascii "200 OK", StatusCode := 200,
    Header := [(ascii "X-Nsq-Content-Type", [ascii "nsq; version=1.0"])],
    Body := ascii "\x7b\"field\":\"x\"\x7d", BodyErr := none }

/-- The type `struct { Field string }` with JSON name `field`. -/
def fieldStruct : GoType := .struct [(ascii "field", .string)]

/-- An environment in which no URL parses. -/
def rejecting : Env Unit :=
  { isPrintWide := fun _ => false
    dialTimeout := fun _ _ _ => .error (.lib (ascii "dial"))
    urlParse := fun _ => .error (.lib (ascii "parse: missing protocol scheme"))
    Do := fun _ _ => .ok emptyObjectAnswer }

/-- An environment in which the transport fails. -/
def unreachable : Env Unit :=
  { isPrintWide := fun _ => false
    dialTimeout := fun _ _ _ => .error (.lib (ascii "i/o timeout"))
    urlParse := fun u => .ok u
    Do := fun _ _ => .error (.lib (ascii "i/o timeout")) }

/-- A 200 answer whose body could not be read to the end. -/
def brokenBodyAnswer : Response :=
  { Status := ascii "200 OK", StatusCode := 200, Header := [], Body := ascii "\x7b\"fie",
    BodyErr := some (.lib (ascii "unexpected EOF")) }

/-- The type `map[string]int`. -/
def intMap : GoType := .map .int

/-- A 200 answer without headers whose body is the envelope around the payload `null`. -/
def nullEnvelopeAnswer : Response :=
  { Status := ascii "200 OK", StatusCode := 200, Header := [],
    Body := ascii "\x7b\"status_txt\":\"OK\",\"status_code\":200,\"data\":null\x7d", BodyErr := none }

/-- A 200 answer with the discriminator header whose body is `null`. -/
def nullDirectAnswer : Response :=
  { Status := ascii "200 OK", StatusCode := 200,
    Header := [(ascii "X-Nsq-Content-Type", [ascii "nsq; version=1.0"])],
    Body := ascii "null", BodyErr := none }

/-- A 200 answer without headers whose body is the envelope around `{"field":"x"}`. -/
def envelopeAnswer : Response :=
  { Status := ascii "200 OK", StatusCode := 200, Header := [],
    Body := ascii "\x7b\"status_txt\":\"OK\",\"status_code\":200,\"data\":\x7b\"field\":\"x\"\x7d\x7d",
    BodyErr := none }

/-- The text in front of the payload in the envelope of status `OK` and code 200. -/
def envelopeHead : Bytes := ascii "\x7b\"status_txt\":\"OK\",\"status_code\":200,\"data\":"

/-- The text of `n` arrays nested in one another: `n` opening brackets, then `n` closing
brackets. -/
def nestedArrays (n : Nat) : Bytes := List.replicate n 0x5B ++ List.replicate n 0x5D

/-- The document `x` wrapped in `k` further one-element arrays. -/
def wrapArr : Nat → JSON → JSON
  | 0, x => x
  | k + 1, x => wrapArr k (.arr [x])

/-- A 200 answer with the discriminator header whose body is 10000 nested arrays. -/
def deepDirectAnswer : Response :=
  { Status := ascii "200 OK", StatusCode := 200,
    Header := [(ascii "X-Nsq-Content-Type", [ascii "nsq; version=1.0"])],
    Body := nestedArrays 10000, BodyErr := none }

/-- A 200 answer without headers whose body is the envelope around 10000 nested arrays. -/
def deepEnvelopeAnswer : Response :=
  { Status := ascii "200 OK", StatusCode := 200, Header := [],
    Body := envelopeHead ++ nestedArrays 10000 ++ ascii "\x7d", BodyErr := none }

/-- The fields of `wrappedResp` with their JSON names. -/
def wrappedRespFields : List (Bytes × GoType) :=
  [(ascii "status_txt", .string), (ascii "status_code", .int), (ascii "data", .iface)]

/-- A value the field `Status` takes without complaint: a string, or `null`. -/
def acceptedStatusText : JSON → Bool
  | .null => true
  | .str _ => true
  | _ => false

/-- A value the field `StatusCode` takes without complaint: a number written as an integer
that fits in 64 bits, or `null`. -/
def acceptedStatusCode : JSON → Bool
  | .null => true
  | .num lit => (parseInt lit).isSome
  | _ => false

/-- Two object members with the same key whose values are the same, unless the key selects
`Status` or `StatusCode` and both values are accepted by that field. -/
def membersAgree (m₁ m₂ : Bytes × JSON) : Prop :=
  m₁.1 = m₂.1 ∧
    (m₁.2 = m₂.2 ∨
      (fieldIndex wrappedRespNames m₁.1 = some 0 ∧ acceptedStatusText m₁.2 = true ∧
        acceptedStatusText m₂.2 = true) ∨
      (fieldIndex wrappedRespNames m₁.1 = some 1 ∧ acceptedStatusCode m₁.2 = true ∧
        acceptedStatusCode m₂.2 = true))

/-- A 200 answer without headers whose envelope has the status code 500 and the text
`ERR`. -/
def envelope500Answer : Response :=
  { Status := ascii "200 OK", StatusCode := 200, Header := [],
    Body := ascii "\x7b\"status_txt\":\"ERR\",\"status_code\":500,\"data\":\x7b\"field\":\"x\"\x7d\x7d",
    BodyErr := none }

/-- A 200 answer without headers whose envelope has a status code beyond 64 bits. -/
def envelopeHugeCodeAnswer : Response :=
  { Status := ascii "200 OK", StatusCode := 200, Header := [],
    Body := ascii
      "\x7b\"status_txt\":\"OK\",\"status_code\":99999999999999999999,\"data\":\x7b\"field\":\"x\"\x7d\x7d",
    BodyErr := none }

/-- The error that decoding `x` into the `i`-th field of `wrappedResp` saves. -/
def wrappedFieldError (i : Nat) (x : JSON) : Option JsonError :=
  match i with
  | 0 => (decode .string x (.str [])).2
  | 1 => (decode .int x (.int 0)).2
  | 2 => (decode .iface x .nil).2
  | _ => none

/-! ## Lemmas -/

theorem theClient_dial {σ : Type} (env : Env σ) (netw addr : Bytes) :
    (theClient env).Transport.Dial netw addr =
      match env.dialTimeout netw addr (2 * Second) with
      | .error err => .error err
      | .ok c => .ok { Timeout := 2 * Second, Conn := c } := rfl

theorem api_answered {σ : Type} (env : Env σ) (method endpoint : Bytes) (body : Option Bytes)
    (t : GoType) (dest : GoVal) (resp : Response)
    (h : Answers env method endpoint body resp) :
    ∃ req, apiRequestNegotiateV1 env method endpoint body t dest =
      if resp.StatusCode ≠ 200 then
        { err := some (.errorf (gotResponseMessage env.isPrintWide resp.Status resp.Body)),
          dest := dest,
          events := [.send req, .closeBody] }
      else if resp.Header.Get (ascii "X-NSQ-Content-Type") = ascii "nsq; version=1.0" then
        { err := (Unmarshal t (if resp.Body.length = 0 then ascii "\x7b\x7d" else resp.Body) dest).2.map
            .json,
          dest := (Unmarshal t (if resp.Body.length = 0 then ascii "\x7b\x7d" else resp.Body) dest).1,
          events := [.send req, .closeBody, .unmarshal] }
      else
        { err := (UnmarshalWrapped t (if resp.Body.length = 0 then ascii "\x7b\x7d" else resp.Body)
            dest).2.map .json,
          dest := (UnmarshalWrapped t (if resp.Body.length = 0 then ascii "\x7b\x7d" else resp.Body)
            dest).1,
          events := [.send req, .closeBody, .unmarshal] } := by
  obtain ⟨req0, h1, h2, h3⟩ := h
  refine ⟨withAccept req0, ?_⟩
  unfold theClient at h2
  unfold withAccept at h2 ⊢
  simp only [apiRequestNegotiateV1, h1, h2, h3]

theorem quoteLoop_plain (wide : Nat → Bool) (b : Bytes) (h : plainText b = true) :
    quoteLoop wide b 0 = b := by
  induction b with
  | nil => rfl
  | cons c rest ih =>
    simp only [plainText, List.all_cons, Bool.and_eq_true, decide_eq_true_eq, bne_iff_ne,
      ne_eq] at h
    obtain ⟨⟨⟨⟨h1, h2⟩, h3⟩, h4⟩, hrest⟩ := h
    have hrest : plainText rest = true := hrest
    have e1 : ¬ (c ≥ 0x80) := by omega
    have e2 : c ≠ runeError := by unfold runeError; omega
    have e3 : escapedRune wide c = [c] := by
      have p : isPrint wide c = true := by
        unfold isPrint
        simp only [show c ≤ 0xFF by omega, if_true, decide_eq_true h1, decide_eq_true h2,
          Bool.and_self]
      unfold escapedRune
      simp only [h3, h4, decide_False, Bool.or_self, Bool.false_eq_true, if_false, p, if_true,
        encodeRune, show c ≤ 0x7F by omega]
    simp only [quoteLoop, e1, if_false, e2, decide_False, Bool.and_false, Bool.false_eq_true,
      e3, Nat.sub_self, ih hrest, List.singleton_append]

/-! ## The non-200 error -/

/-- C1, as stated, fails: for the 404 answer with body `"not found"` (quotes included) the
error message is `got response 404 Not Found "\"not found\""`, in which the body text does
not occur, the verb `%q` having escaped its quotes. -/
theorem C1_raw_body_not_in_message :
    ¬ ∃ msg, (apiRequestNegotiateV1 (serving notFoundQuoted) (ascii "GET")
        (ascii "http://127.0.0.1:4151/stats") none .string (.str [])).err
          = some (.errorf msg) ∧
      notFoundQuoted.Status <:+: msg ∧ notFoundQuoted.Body <:+: msg := by
  rintro ⟨msg, h, -, hb⟩
  have e : (apiRequestNegotiateV1 (serving notFoundQuoted) (ascii "GET")
      (ascii "http://127.0.0.1:4151/stats") none .string (.str [])).err
        = some (.errorf (ascii "got response 404 Not Found \"\\\"not found\\\"\"")) := by rfl
  rw [e] at h
  injection h with h
  injection h with h
  subst h
  revert hb
  decide

/-- C1, amended: for every answer whose status code is not 200 the call returns the error
of `fmt.Errorf` whose message is exactly `got response `, the status text, a blank, and
the body as quoted by `strconv.Quote`.  The message therefore contains the status text and
the quoted body; when the body is printable ASCII without double quote and backslash the
quoted body is the body between two double quotes, so the message contains the raw body
text as well. -/
theorem non200_error_message {σ : Type} (env : Env σ) (method endpoint : Bytes)
    (body : Option Bytes) (t : GoType) (dest : GoVal) (resp : Response)
    (h : Answers env method endpoint body resp) (hs : resp.StatusCode ≠ 200) :
    ∃ msg, msg = ascii "got response " ++ resp.Status ++ ascii " " ++
        quote env.isPrintWide resp.Body ∧
      (apiRequestNegotiateV1 env method endpoint body t dest).err = some (.errorf msg) ∧
      resp.Status <:+: msg ∧ quote env.isPrintWide resp.Body <:+: msg ∧
      (plainText resp.Body = true →
        msg = ascii "got response " ++ resp.Status ++ ascii " \"" ++ resp.Body ++ ascii "\"" ∧
        resp.Body <:+: msg) := by
  refine ⟨_, rfl, ?_, ?_, ?_, ?_⟩
  · obtain ⟨rq, hq⟩ := api_answered env method endpoint body t dest resp h
    rw [hq, if_pos hs]
    rfl
  · exact ⟨ascii "got response ", ascii " " ++ quote env.isPrintWide resp.Body, by simp⟩
  · exact ⟨ascii "got response " ++ resp.Status ++ ascii " ", [], by simp⟩
  · intro hp
    have hq : quote env.isPrintWide resp.Body = ascii "\"" ++ resp.Body ++ ascii "\"" := by
      simp only [quote, quoteLoop_plain env.isPrintWide resp.Body hp]
      rfl
    have ha : ascii " \"" = ascii " " ++ ascii "\"" := by rfl
    constructor
    · rw [hq, ha]
      simp only [List.append_assoc]
    · refine ⟨ascii "got response " ++ resp.Status ++ ascii " " ++ ascii "\"", ascii "\"", ?_⟩
      rw [hq]
      simp only [List.append_assoc]

/-- Witness of `non200_error_message`: the 404 answer with the plain body `not found`
yields the message `got response 404 Not Found "not found"`. -/
theorem non200_error_message_witness :
    Answers (serving notFoundPlain) (ascii "GET") (ascii "http://127.0.0.1:4151/stats") none
      notFoundPlain ∧ notFoundPlain.StatusCode ≠ 200 ∧ plainText notFoundPlain.Body = true ∧
    (apiRequestNegotiateV1 (serving notFoundPlain) (ascii "GET")
        (ascii "http://127.0.0.1:4151/stats") none .string (.str [])).err
          = some (.errorf (ascii "got response 404 Not Found \"not found\"")) ∧
    notFoundPlain.Body <:+: ascii "got response 404 Not Found \"not found\"" :=
  have w := non200_error_message (serving notFoundPlain) (ascii "GET")
    (ascii "http://127.0.0.1:4151/stats") none .string (.str []) notFoundPlain
    ⟨_, rfl, rfl, rfl⟩ (by decide)
  ⟨⟨_, rfl, rfl, rfl⟩, by decide, by decide,
    by
      obtain ⟨msg, h0, h1, -, -, h4⟩ := w
      have h5 := (h4 (by decide)).1
      rw [h1, h5]
      rfl,
    by decide⟩

/-! ## The empty body -/

/-- C3: under the same headers, a 200 answer with a zero-length body and a 200 answer with
the body `{}` give the same error and the same final destination. -/
theorem empty_body_same_as_empty_object {σ₁ σ₂ : Type} (env₁ : Env σ₁) (env₂ : Env σ₂)
    (m₁ e₁ m₂ e₂ : Bytes) (b₁ b₂ : Option Bytes) (t : GoType) (dest : GoVal)
    (resp : Response)
    (h₁ : Answers env₁ m₁ e₁ b₁ { resp with Body := [] })
    (h₂ : Answers env₂ m₂ e₂ b₂ { resp with Body := ascii "\x7b\x7d" })
    (hs : resp.StatusCode = 200) :
    (apiRequestNegotiateV1 env₁ m₁ e₁ b₁ t dest).err =
      (apiRequestNegotiateV1 env₂ m₂ e₂ b₂ t dest).err ∧
    (apiRequestNegotiateV1 env₁ m₁ e₁ b₁ t dest).dest =
      (apiRequestNegotiateV1 env₂ m₂ e₂ b₂ t dest).dest := by
  obtain ⟨rq₁, hq₁⟩ := api_answered env₁ m₁ e₁ b₁ t dest _ h₁
  obtain ⟨rq₂, hq₂⟩ := api_answered env₂ m₂ e₂ b₂ t dest _ h₂
  rw [hq₁, hq₂]
  have hne : ¬ ((ascii "\x7b\x7d").length = 0) := by decide
  simp only [hs, ne_eq, not_true_eq_false, if_false, List.length_nil, if_true, hne]
  by_cases hh : resp.Header.Get (ascii "X-NSQ-Content-Type") = ascii "nsq; version=1.0"
  · simp only [hh, if_true, and_self]
  · simp only [hh, if_false, and_self]

/-- Witness of `empty_body_same_as_empty_object`: the header-less 200 answers with an
empty body and with the body `{}`. -/
theorem empty_body_same_as_empty_object_witness :
    Answers (serving emptyBodyAnswer) (ascii "GET") (ascii "http://127.0.0.1:4151/ping") none
      { emptyObjectAnswer with Body := [] } ∧
    Answers (serving emptyObjectAnswer) (ascii "GET") (ascii "http://127.0.0.1:4151/ping") none
      { emptyObjectAnswer with Body := ascii "\x7b\x7d" } ∧
    emptyObjectAnswer.StatusCode = 200 ∧
    (apiRequestNegotiateV1 (serving emptyBodyAnswer) (ascii "GET")
        (ascii "http://127.0.0.1:4151/ping") none fieldStruct (.struct [.str (ascii "y")])).err =
      (apiRequestNegotiateV1 (serving emptyObjectAnswer) (ascii "GET")
        (ascii "http://127.0.0.1:4151/ping") none fieldStruct (.struct [.str (ascii "y")])).err ∧
    (apiRequestNegotiateV1 (serving emptyBodyAnswer) (ascii "GET")
        (ascii "http://127.0.0.1:4151/ping") none fieldStruct (.struct [.str (ascii "y")])).dest =
      (apiRequestNegotiateV1 (serving emptyObjectAnswer) (ascii "GET")
        (ascii "http://127.0.0.1:4151/ping") none fieldStruct (.struct [.str (ascii "y")])).dest :=
  ⟨⟨_, rfl, rfl, rfl⟩, ⟨_, rfl, rfl, rfl⟩, rfl,
    empty_body_same_as_empty_object (serving emptyBodyAnswer) (serving emptyObjectAnswer)
      (ascii "GET") (ascii "http://127.0.0.1:4151/ping") (ascii "GET")
      (ascii "http://127.0.0.1:4151/ping") none none fieldStruct (.struct [.str (ascii "y")])
      emptyObjectAnswer ⟨_, rfl, rfl, rfl⟩ ⟨_, rfl, rfl, rfl⟩ rfl⟩

/-! ## The two decode paths -/

/-- C5: for a 200 answer whose `X-NSQ-Content-Type` is exactly `nsq; version=1.0` the
error and the final destination are those of `json.Unmarshal` of the body (of `{}` for an
empty body) into the destination, and a body that is not well-formed JSON gives an error
with the destination untouched; for every other value of the header, the absent one
included, they are those of `json.Unmarshal` into the envelope. -/
theorem header_selects_decode_path {σ : Type} (env : Env σ) (method endpoint : Bytes)
    (body : Option Bytes) (t : GoType) (dest : GoVal) (resp : Response)
    (h : Answers env method endpoint body resp) (hs : resp.StatusCode = 200) :
    (resp.Header.Get (ascii "X-NSQ-Content-Type") = nsqV1 →
      (apiRequestNegotiateV1 env method endpoint body t dest).err =
        (Unmarshal t (if resp.Body = [] then ascii "\x7b\x7d" else resp.Body) dest).2.map .json ∧
      (apiRequestNegotiateV1 env method endpoint body t dest).dest =
        (Unmarshal t (if resp.Body = [] then ascii "\x7b\x7d" else resp.Body) dest).1 ∧
      (parseJSON (if resp.Body = [] then ascii "\x7b\x7d" else resp.Body) = none →
        (apiRequestNegotiateV1 env method endpoint body t dest).err = some (.json .syntaxError) ∧
        (apiRequestNegotiateV1 env method endpoint body t dest).dest = dest)) ∧
    (resp.Header.Get (ascii "X-NSQ-Content-Type") ≠ nsqV1 →
      (apiRequestNegotiateV1 env method endpoint body t dest).err =
        (UnmarshalWrapped t (if resp.Body = [] then ascii "\x7b\x7d" else resp.Body) dest).2.map
          .json ∧
      (apiRequestNegotiateV1 env method endpoint body t dest).dest =
        (UnmarshalWrapped t (if resp.Body = [] then ascii "\x7b\x7d" else resp.Body) dest).1) := by
  obtain ⟨rq, hq⟩ := api_answered env method endpoint body t dest resp h
  rw [hq]
  simp only [hs, ne_eq, not_true_eq_false, if_false, List.length_eq_zero]
  constructor
  · intro hh
    have hh' : resp.Header.Get (ascii "X-NSQ-Content-Type") = ascii "nsq; version=1.0" := hh
    simp only [hh', if_true, true_and]
    intro hp
    simp only [Unmarshal, hp, Option.map_some', and_self]
  · intro hh
    have hh' : ¬ resp.Header.Get (ascii "X-NSQ-Content-Type") = ascii "nsq; version=1.0" := hh
    simp only [hh', if_false, and_self]

/-- Witness of `header_selects_decode_path`: the 200 answer with the discriminator header
and body `{"field":"x"}` fills the field of a `struct { Field string }`. -/
theorem header_selects_decode_path_witness :
    Answers (serving directAnswer) (ascii "GET") (ascii "http://127.0.0.1:4151/info") none
      directAnswer ∧ directAnswer.StatusCode = 200 ∧
    directAnswer.Header.Get (ascii "X-NSQ-Content-Type") = nsqV1 ∧
    (apiRequestNegotiateV1 (serving directAnswer) (ascii "GET")
      (ascii "http://127.0.0.1:4151/info") none fieldStruct (zeroValue fieldStruct)).dest =
      .struct [.str (ascii "x")] :=
  ⟨⟨_, rfl, rfl, rfl⟩, rfl, rfl,
    (((header_selects_decode_path (serving directAnswer) (ascii "GET")
      (ascii "http://127.0.0.1:4151/info") none fieldStruct (zeroValue fieldStruct) directAnswer
      ⟨_, rfl, rfl, rfl⟩ rfl).1 rfl).2.1).trans rfl⟩

/-! ## The request sent -/

/-- C7, as stated, fails: called with the empty method, the request handed to
`httpclient.Do` has the method `GET`, not the caller's method, `http.NewRequest` having
replaced it. -/
theorem C7_empty_method_becomes_GET :
    ¬ ∀ r ∈ sentRequests (apiRequestNegotiateV1 (serving emptyObjectAnswer) []
        (ascii "http://127.0.0.1:4151/ping") none fieldStruct (zeroValue fieldStruct)).events,
      r.Method = [] ∧ r.URL = ascii "http://127.0.0.1:4151/ping" ∧ r.Body = none ∧
      Header.values r.Header (CanonicalMIMEHeaderKey (ascii "Accept")) =
        [ascii "application/vnd.nsq; version=1.0"] := by
  intro h
  have e : sentRequests (apiRequestNegotiateV1 (serving emptyObjectAnswer) []
      (ascii "http://127.0.0.1:4151/ping") none fieldStruct (zeroValue fieldStruct)).events =
      [Request.mk (ascii "GET") (ascii "http://127.0.0.1:4151/ping")
         [(ascii "Accept", [ascii "application/vnd.nsq; version=1.0"])] none] := by rfl
  rw [e] at h
  have h1 := (h _ (List.mem_singleton.mpr rfl)).1
  revert h1
  decide

theorem NewRequest_ok {σ : Type} (env : Env σ) (method endpoint : Bytes)
    (body : Option Bytes) (req0 : Request) (h : NewRequest env method endpoint body = .ok req0) :
    req0.Method = (if method.length = 0 then ascii "GET" else method) ∧
    env.urlParse endpoint = .ok req0.URL ∧ req0.Body = body ∧ req0.Header = [] := by
  unfold NewRequest at h
  simp only at h
  by_cases hv : (!validMethod (if method.length = 0 then ascii "GET" else method)) = true
  · rw [if_pos hv] at h
    cases h
  · rw [if_neg hv] at h
    cases hu : env.urlParse endpoint with
    | error err =>
      rw [hu] at h
      cases h
    | ok u =>
      rw [hu] at h
      simp only [Except.ok.injEq] at h
      subst h
      exact ⟨rfl, rfl, rfl, rfl⟩

/-- C7, amended: a call hands no request to `httpclient.Do` when `http.NewRequest` fails
and exactly the request it built, with `Accept` added, otherwise.  That request has the
caller's method, or `GET` when the caller's method is empty; the URL parsed from the
caller's endpoint; the caller's body; and `Accept` as its only header, with the single
value `application/vnd.nsq; version=1.0`. -/
theorem request_carries_accept {σ : Type} (env : Env σ) (method endpoint : Bytes)
    (body : Option Bytes) (t : GoType) (dest : GoVal) :
    sentRequests (apiRequestNegotiateV1 env method endpoint body t dest).events =
      (match NewRequest env method endpoint body with
       | .error _ => []
       | .ok req0 => [withAccept req0]) ∧
    ∀ r ∈ sentRequests (apiRequestNegotiateV1 env method endpoint body t dest).events,
      r.Method = (if method.length = 0 then ascii "GET" else method) ∧
      env.urlParse endpoint = .ok r.URL ∧ r.Body = body ∧
      r.Header = [(ascii "Accept", [ascii "application/vnd.nsq; version=1.0"])] ∧
      Header.values r.Header (CanonicalMIMEHeaderKey (ascii "Accept")) =
        [ascii "application/vnd.nsq; version=1.0"] ∧
      r.Header.Get (ascii "Accept") = ascii "application/vnd.nsq; version=1.0" := by
  have key : sentRequests (apiRequestNegotiateV1 env method endpoint body t dest).events =
      (match NewRequest env method endpoint body with
       | .error _ => []
       | .ok req0 => [withAccept req0]) := by
    unfold apiRequestNegotiateV1
    cases hn : NewRequest env method endpoint body with
    | error err => simp [sentRequests]
    | ok req0 =>
      simp only
      split
      · simp [sentRequests, withAccept]
      · split
        · simp [sentRequests, withAccept]
        · split_ifs <;> simp [sentRequests, withAccept]
  refine ⟨key, ?_⟩
  intro r hr
  rw [key] at hr
  cases hn : NewRequest env method endpoint body with
  | error err =>
    rw [hn] at hr
    cases hr
  | ok req0 =>
    rw [hn] at hr
    simp only [List.mem_singleton] at hr
    subst hr
    obtain ⟨h1, h2, h3, h4⟩ := NewRequest_ok env method endpoint body req0 hn
    refine ⟨h1, h2, h3, ?_, ?_, ?_⟩ <;> simp only [withAccept, h4] <;> rfl

/-- Witness of `request_carries_accept`: a `POST` with a body to a parsable endpoint. -/
theorem request_carries_accept_witness :
    sentRequests (apiRequestNegotiateV1 (serving emptyObjectAnswer) (ascii "POST")
        (ascii "http://127.0.0.1:4151/topic/create?topic=t") (some (ascii "x")) fieldStruct
        (zeroValue fieldStruct)).events =
      [Request.mk (ascii "POST") (ascii "http://127.0.0.1:4151/topic/create?topic=t")
         [(ascii "Accept", [ascii "application/vnd.nsq; version=1.0"])] (some (ascii "x"))] :=
  (request_carries_accept (serving emptyObjectAnswer) (ascii "POST")
    (ascii "http://127.0.0.1:4151/topic/create?topic=t") (some (ascii "x")) fieldStruct
    (zeroValue fieldStruct)).1.trans rfl

/-! ## The body `{}` through the envelope -/

/-- C4, as stated, fails: a `struct { Field string }` destination holding `"y"` still holds
`"y"`, not the zero value, after a header-less 200 answer with body `{}`. -/
theorem C4_destination_not_zeroed :
    ¬ ((apiRequestNegotiateV1 (serving emptyObjectAnswer) (ascii "GET")
        (ascii "http://127.0.0.1:4151/ping") none fieldStruct (.struct [.str (ascii "y")])).err
          = none ∧
      (apiRequestNegotiateV1 (serving emptyObjectAnswer) (ascii "GET")
        (ascii "http://127.0.0.1:4151/ping") none fieldStruct (.struct [.str (ascii "y")])).dest
          = zeroValue fieldStruct) := by
  rintro ⟨-, h⟩
  have e : (apiRequestNegotiateV1 (serving emptyObjectAnswer) (ascii "GET")
      (ascii "http://127.0.0.1:4151/ping") none fieldStruct (.struct [.str (ascii "y")])).dest
        = .struct [.str [121]] := by rfl
  have z : zeroValue fieldStruct = .struct [.str []] := by rfl
  rw [e, z] at h
  injection h with h
  injection h with h
  injection h with h
  cases h

/-- C4, amended: for any destination type and contents, a 200 answer with body `{}` and
without the discriminator value in `X-NSQ-Content-Type` makes the call return nil and
leaves the destination exactly as it was; it is the zero value afterwards when it was the
zero value before. -/
theorem empty_object_keeps_destination {σ : Type} (env : Env σ) (method endpoint : Bytes)
    (body : Option Bytes) (t : GoType) (dest : GoVal) (resp : Response)
    (h : Answers env method endpoint body resp) (hs : resp.StatusCode = 200)
    (hb : resp.Body = ascii "\x7b\x7d")
    (hh : resp.Header.Get (ascii "X-NSQ-Content-Type") ≠ nsqV1) :
    (apiRequestNegotiateV1 env method endpoint body t dest).err = none ∧
    (apiRequestNegotiateV1 env method endpoint body t dest).dest = dest ∧
    (dest = zeroValue t →
      (apiRequestNegotiateV1 env method endpoint body t dest).dest = zeroValue t) := by
  have hh' : ¬ resp.Header.Get (ascii "X-NSQ-Content-Type") = ascii "nsq; version=1.0" := hh
  have hp : parseJSON (ascii "\x7b\x7d") = some (.obj []) := by rfl
  have hne : ¬ ((ascii "\x7b\x7d").length = 0) := by decide
  obtain ⟨rq, hq⟩ := api_answered env method endpoint body t dest resp h
  rw [hq]
  simp only [hs, ne_eq, not_true_eq_false, if_false, hh', hb, hne, UnmarshalWrapped, hp,
    wrappedMembers, Option.map_none', true_and]
  exact fun h => h

/-- Witness of `empty_object_keeps_destination`: the header-less 200 answer with body `{}`
and a `struct { Field string }` destination. -/
theorem empty_object_keeps_destination_witness :
    Answers (serving emptyObjectAnswer) (ascii "GET") (ascii "http://127.0.0.1:4151/ping") none
      emptyObjectAnswer ∧ emptyObjectAnswer.StatusCode = 200 ∧
    emptyObjectAnswer.Body = ascii "\x7b\x7d" ∧
    emptyObjectAnswer.Header.Get (ascii "X-NSQ-Content-Type") ≠ nsqV1 ∧
    (apiRequestNegotiateV1 (serving emptyObjectAnswer) (ascii "GET")
      (ascii "http://127.0.0.1:4151/ping") none fieldStruct (.struct [.str (ascii "y")])).err
        = none ∧
    (apiRequestNegotiateV1 (serving emptyObjectAnswer) (ascii "GET")
      (ascii "http://127.0.0.1:4151/ping") none fieldStruct (.struct [.str (ascii "y")])).dest
        = .struct [.str (ascii "y")] :=
  have w := empty_object_keeps_destination (serving emptyObjectAnswer) (ascii "GET")
    (ascii "http://127.0.0.1:4151/ping") none fieldStruct (.struct [.str (ascii "y")])
    emptyObjectAnswer ⟨_, rfl, rfl, rfl⟩ rfl rfl (by decide)
  ⟨⟨_, rfl, rfl, rfl⟩, rfl, rfl, by decide, w.1, w.2.1⟩

/-! ## Failures before decoding -/

/-- C10: when request construction fails the call returns that error, sends nothing and
leaves the destination alone; when the transport fails, when reading the body fails, and
when the status code is not 200, the call returns that error (for the status code, the
error of `fmt.Errorf`), does not invoke the JSON decoder and leaves the destination alone,
whatever the body and the headers are. -/
theorem failure_before_decoding {σ : Type} (env : Env σ) (method endpoint : Bytes)
    (body : Option Bytes) (t : GoType) (dest : GoVal) :
    (∀ err, NewRequest env method endpoint body = .error err →
      (apiRequestNegotiateV1 env method endpoint body t dest).err = some err ∧
      (apiRequestNegotiateV1 env method endpoint body t dest).dest = dest ∧
      (apiRequestNegotiateV1 env method endpoint body t dest).events = []) ∧
    (∀ req0 err, NewRequest env method endpoint body = .ok req0 →
      env.Do (theClient env) (withAccept req0) = .error err →
      (apiRequestNegotiateV1 env method endpoint body t dest).err = some err ∧
      (apiRequestNegotiateV1 env method endpoint body t dest).dest = dest ∧
      decoderInvoked (apiRequestNegotiateV1 env method endpoint body t dest).events = false) ∧
    (∀ req0 resp err, NewRequest env method endpoint body = .ok req0 →
      env.Do (theClient env) (withAccept req0) = .ok resp →
      resp.BodyErr = some err →
      (apiRequestNegotiateV1 env method endpoint body t dest).err = some err ∧
      (apiRequestNegotiateV1 env method endpoint body t dest).dest = dest ∧
      decoderInvoked (apiRequestNegotiateV1 env method endpoint body t dest).events = false) ∧
    (∀ req0 resp, NewRequest env method endpoint body = .ok req0 →
      env.Do (theClient env) (withAccept req0) = .ok resp →
      resp.BodyErr = none → resp.StatusCode ≠ 200 →
      (apiRequestNegotiateV1 env method endpoint body t dest).err =
        some (.errorf (gotResponseMessage env.isPrintWide resp.Status resp.Body)) ∧
      (apiRequestNegotiateV1 env method endpoint body t dest).dest = dest ∧
      decoderInvoked (apiRequestNegotiateV1 env method endpoint body t dest).events = false) := by
  refine ⟨?_, ?_, ?_, ?_⟩
  · intro err h1
    simp only [apiRequestNegotiateV1, h1, and_self]
  · intro req0 err h1 h2
    unfold theClient withAccept at h2
    simp only [apiRequestNegotiateV1, h1, h2, decoderInvoked, and_self]
  · intro req0 resp err h1 h2 h3
    unfold theClient withAccept at h2
    simp only [apiRequestNegotiateV1, h1, h2, h3, decoderInvoked, and_self]
  · intro req0 resp h1 h2 h3 h4
    obtain ⟨rq, hq⟩ := api_answered env method endpoint body t dest resp ⟨req0, h1, h2, h3⟩
    rw [hq, if_pos h4]
    simp only [decoderInvoked, and_self]

/-- Witness of `failure_before_decoding`: an invalid method, an endpoint that does not
parse, a failing transport, a body cut short and a 404 answer each leave a
`struct { Field string }` holding `"y"` alone. -/
theorem failure_before_decoding_witness :
    (apiRequestNegotiateV1 (serving emptyObjectAnswer) (ascii "B A D")
      (ascii "http://127.0.0.1:4151/ping") none
      fieldStruct (.struct [.str (ascii "y")])).events = [] ∧
    (apiRequestNegotiateV1 rejecting (ascii "GET") (ascii "://") none
      fieldStruct (.struct [.str (ascii "y")])).events = [] ∧
    (apiRequestNegotiateV1 unreachable (ascii "GET") (ascii "http://127.0.0.1:4151/ping") none
      fieldStruct (.struct [.str (ascii "y")])).dest = .struct [.str (ascii "y")] ∧
    (apiRequestNegotiateV1 (serving brokenBodyAnswer) (ascii "GET")
      (ascii "http://127.0.0.1:4151/ping") none fieldStruct (.struct [.str (ascii "y")])).dest
        = .struct [.str (ascii "y")] ∧
    (apiRequestNegotiateV1 (serving notFoundQuoted) (ascii "GET")
      (ascii "http://127.0.0.1:4151/ping") none fieldStruct (.struct [.str (ascii "y")])).dest
        = .struct [.str (ascii "y")] :=
  ⟨((failure_before_decoding (serving emptyObjectAnswer) (ascii "B A D")
      (ascii "http://127.0.0.1:4151/ping") none fieldStruct
      (.struct [.str (ascii "y")])).1 _ rfl).2.2,
   ((failure_before_decoding rejecting (ascii "GET") (ascii "://")
      none fieldStruct (.struct [.str (ascii "y")])).1 _ rfl).2.2,
   ((failure_before_decoding unreachable (ascii "GET") (ascii "http://127.0.0.1:4151/ping")
      none fieldStruct (.struct [.str (ascii "y")])).2.1 _ _ rfl rfl).2.1,
   ((failure_before_decoding (serving brokenBodyAnswer) (ascii "GET")
      (ascii "http://127.0.0.1:4151/ping") none fieldStruct
      (.struct [.str (ascii "y")])).2.2.1 _ brokenBodyAnswer _ rfl rfl rfl).2.1,
   ((failure_before_decoding (serving notFoundQuoted) (ascii "GET")
      (ascii "http://127.0.0.1:4151/ping") none fieldStruct
      (.struct [.str (ascii "y")])).2.2.2 _ notFoundQuoted rfl rfl rfl (by decide)).2.1⟩

/-! ## The deadline-enforcing connection -/

/-- C9: `Read` sets the read deadline of the underlying connection to now + timeout, then
returns what the underlying `Read` returns under that deadline, and leaves the write
deadline and the timeout alone; `Write` does the same with the write deadline, leaving the
read deadline alone.  The deadline is set anew by every call: after two reads it is the
instant of the second read plus the timeout. -/
theorem deadlinedConn_sets_sliding_deadline {σ : Type} (ops : ConnOps σ) (c : deadlinedConn σ)
    (now later : Time) (len len2 : Nat) (b b2 : Bytes) :
    ((c.Read ops now len).1 = ((c.Conn.SetReadDeadline (now + c.Timeout)).Read ops now len).1 ∧
      (c.Read ops now len).1 = (ops.read now (some (now + c.Timeout)) len c.Conn.sock).1 ∧
      (c.Read ops now len).2.Conn.readDeadline = some (now + c.Timeout) ∧
      (c.Read ops now len).2.Conn.writeDeadline = c.Conn.writeDeadline ∧
      (c.Read ops now len).2.Timeout = c.Timeout) ∧
    ((c.Write ops now b).1 = ((c.Conn.SetWriteDeadline (now + c.Timeout)).Write ops now b).1 ∧
      (c.Write ops now b).1 = (ops.write now (some (now + c.Timeout)) b c.Conn.sock).1 ∧
      (c.Write ops now b).2.Conn.writeDeadline = some (now + c.Timeout) ∧
      (c.Write ops now b).2.Conn.readDeadline = c.Conn.readDeadline ∧
      (c.Write ops now b).2.Timeout = c.Timeout) ∧
    ((c.Read ops now len).2.Read ops later len2).2.Conn.readDeadline
      = some (later + c.Timeout) ∧
    ((c.Write ops now b).2.Write ops later b2).2.Conn.writeDeadline
      = some (later + c.Timeout) := by
  refine ⟨⟨rfl, rfl, rfl, rfl, rfl⟩, ⟨rfl, rfl, rfl, rfl, rfl⟩, rfl, rfl⟩

/-! ## The envelope -/

theorem firstError_none (a : Option JsonError) : firstError a none = a := by
  cases a <;> rfl

theorem firstError_none_left (b : Option JsonError) : firstError none b = b := rfl

theorem wrappedMembers_envelope (t : GoType) (P : JSON) (dest : GoVal) :
    wrappedMembers t
      [(ascii "status_txt", .str (ascii "OK")), (ascii "status_code", .num (ascii "200")),
        (ascii "data", P)] (.str []) (.int 0) dest =
      match P with
      | .null => (dest, none)
      | _ => decode t P dest := by
  have i0 : fieldIndex wrappedRespNames (ascii "status_txt") = some 0 := by rfl
  have i1 : fieldIndex wrappedRespNames (ascii "status_code") = some 1 := by rfl
  have i2 : fieldIndex wrappedRespNames (ascii "data") = some 2 := by rfl
  have d0 : decode .string (.str (ascii "OK")) (.str []) = (.str (ascii "OK"), none) := by rfl
  have d1 : decode .int (.num (ascii "200")) (.int 0) = (.int 200, none) := by rfl
  have e : (decode wrappedRespType (.obj []) (.struct [.str (ascii "OK"), .int 200, .nil])).2
      = none := by rfl
  cases P <;>
    simp only [wrappedMembers, i0, i1, i2, d0, d1, e, firstError_none_left, firstError_none]

/-! ## The scanner on an envelope -/

theorem lexLoop_append (a b : Bytes) (st : LexMode × List Tok) :
    lexLoop (a ++ b) st = (lexLoop a st).bind (lexLoop b) := by
  induction a generalizing st with
  | nil => rfl
  | cons c rest ih =>
    simp only [List.cons_append, lexLoop]
    cases lexStep st c with
    | none => rfl
    | some st1 => exact ih st1

theorem lexIdle_acc (toks : List Tok) (c : Nat) :
    lexIdle toks c = (lexIdle [] c).map (fun r => (r.1, r.2 ++ toks)) := by
  unfold lexIdle
  simp only [apply_ite (Option.map _), Option.map_some', Option.map_none', List.nil_append,
    List.singleton_append]

theorem lexStep_acc (m : LexMode) (toks : List Tok) (c : Nat) :
    lexStep (m, toks) c = (lexStep (m, []) c).map (fun r => (r.1, r.2 ++ toks)) := by
  cases m with
  | idle => exact lexIdle_acc toks c
  | inString acc esc =>
    simp only [lexStep]
    split_ifs <;> try simp
    cases unquote acc.reverse <;> simp
  | inNumber acc =>
    simp only [lexStep]
    split_ifs
    · simp
    · cases numberTok acc with
      | none => simp
      | some t =>
        simp only
        rw [lexIdle_acc (t :: toks) c, lexIdle_acc [t] c]
        cases lexIdle [] c <;> simp
  | inWord acc =>
    simp only [lexStep]
    split_ifs
    · simp
    · cases wordTok acc with
      | none => simp
      | some t =>
        simp only
        rw [lexIdle_acc (t :: toks) c, lexIdle_acc [t] c]
        cases lexIdle [] c <;> simp

theorem lexLoop_acc (bs : Bytes) (m : LexMode) (toks : List Tok) :
    lexLoop bs (m, toks) = (lexLoop bs (m, [])).map (fun r => (r.1, r.2 ++ toks)) := by
  induction bs generalizing m toks with
  | nil => simp [lexLoop]
  | cons c rest ih =>
    simp only [lexLoop]
    rw [lexStep_acc m toks c]
    cases h : lexStep (m, []) c with
    | none => simp
    | some st1 =>
      obtain ⟨m1, ts⟩ := st1
      simp only [Option.map_some']
      rw [ih m1 (ts ++ toks), ih m1 ts]
      cases lexLoop rest (m1, []) <;> simp

theorem lex_wrapped (pre pb : Bytes) (R toksP : List Tok)
    (hpre : lexLoop pre (.idle, []) = some (.idle, R)) (hp : lex pb = some toksP) :
    lex (pre ++ pb ++ ascii "\x7d") = some (R.reverse ++ toksP ++ [.rbrace]) := by
  have hb : ascii "\x7d" = [0x7D] := by rfl
  unfold lex at hp ⊢
  rw [lexLoop_append, lexLoop_append, hpre, Option.some_bind, lexLoop_acc pb .idle R, hb]
  cases h : lexLoop pb (.idle, []) with
  | none => rw [h] at hp; cases hp
  | some st =>
    obtain ⟨m, ts⟩ := st
    rw [h] at hp
    cases m with
    | idle =>
      simp only [Option.some.injEq] at hp
      subst hp
      simp [lexLoop, lexStep, lexIdle]
    | inString acc esc => cases hp
    | inNumber acc =>
      cases ht : numberTok acc with
      | none => simp [ht] at hp
      | some t =>
        simp only [ht, Option.map_eq_map, Option.map_some', Option.some.injEq] at hp
        subst hp
        simp [lexLoop, lexStep, lexIdle, ht, isDigit]
    | inWord acc =>
      cases ht : wordTok acc with
      | none => simp [ht] at hp
      | some t =>
        simp only [ht, Option.map_eq_map, Option.map_some', Option.some.injEq] at hp
        subst hp
        simp [lexLoop, lexStep, lexIdle, ht]

theorem parseLoop_append (L : Nat) (a b : List Tok) (st : List Frame × Phase) :
    parseLoop L (a ++ b) st = (parseLoop L a st).bind (parseLoop L b) := by
  induction a generalizing st with
  | nil => rfl
  | cons c rest ih =>
    simp only [List.cons_append, parseLoop]
    cases parseStep L st c with
    | none => rfl
    | some st1 => exact ih st1

theorem completeValue_frame (v : JSON) (f : Frame) (st S : List Frame) (r : List Frame × Phase)
    (h : completeValue v (f :: st) = some r) :
    r.1 ≠ [] ∧ completeValue v (f :: st ++ S) = some (r.1 ++ S, r.2) := by
  cases f with
  | arr items =>
    simp only [completeValue, Option.some.injEq] at h
    subst h
    simp [completeValue]
  | obj ms key =>
    cases key with
    | none => simp [completeValue] at h
    | some k =>
      simp only [completeValue, Option.some.injEq] at h
      subst h
      simp [completeValue]

theorem completeValue_any (v : JSON) (st S : List Frame) (r : List Frame × Phase)
    (h : completeValue v st = some r) :
    (r = ([], .done v) ∧ st = []) ∨
      (r.1 ≠ [] ∧ completeValue v (st ++ S) = some (r.1 ++ S, r.2)) := by
  cases st with
  | nil =>
    left
    simp only [completeValue, Option.some.injEq] at h
    exact ⟨h.symm, rfl⟩
  | cons f rest =>
    right
    exact completeValue_frame v f rest S r h

theorem parseValueTok_frame (L L' : Nat) (f : Frame) (st S : List Frame) (t : Tok)
    (r : List Frame × Phase) (hL : L + S.length ≤ L')
    (h : parseValueTok L (f :: st) t = some r) :
    r.1 ≠ [] ∧ parseValueTok L' (f :: st ++ S) t = some (r.1 ++ S, r.2) := by
  cases t with
  | lit v => exact completeValue_frame v f st S r h
  | lbrack =>
    simp only [parseValueTok] at h
    split_ifs at h with hd
    simp only [Option.some.injEq] at h
    subst h
    have hd' : st.length + S.length + 1 < L' := by
      simp only [List.length_cons] at hd
      omega
    simp [parseValueTok, hd']
  | lbrace =>
    simp only [parseValueTok] at h
    split_ifs at h with hd
    simp only [Option.some.injEq] at h
    subst h
    have hd' : st.length + S.length + 1 < L' := by
      simp only [List.length_cons] at hd
      omega
    simp [parseValueTok, hd']
  | rbrace => simp [parseValueTok] at h
  | rbrack => simp [parseValueTok] at h
  | colon => simp [parseValueTok] at h
  | comma => simp [parseValueTok] at h

theorem parseKeyTok_frame (f : Frame) (st S : List Frame) (t : Tok)
    (r : List Frame × Phase) (h : parseKeyTok (f :: st) t = some r) :
    r.1 ≠ [] ∧ parseKeyTok (f :: st ++ S) t = some (r.1 ++ S, r.2) := by
  cases t with
  | lit v =>
    cases v with
    | str k =>
      cases f with
      | arr items => simp [parseKeyTok] at h
      | obj ms key =>
        cases key with
        | some k1 => simp [parseKeyTok] at h
        | none =>
          simp only [parseKeyTok, Option.some.injEq] at h
          subst h
          simp [parseKeyTok]
    | null => simp [parseKeyTok] at h
    | bool b => simp [parseKeyTok] at h
    | num l => simp [parseKeyTok] at h
    | arr xs => simp [parseKeyTok] at h
    | obj ms => simp [parseKeyTok] at h
  | lbrack => simp [parseKeyTok] at h
  | lbrace => simp [parseKeyTok] at h
  | rbrace => simp [parseKeyTok] at h
  | rbrack => simp [parseKeyTok] at h
  | colon => simp [parseKeyTok] at h
  | comma => simp [parseKeyTok] at h

theorem pop_frame (v : JSON) (rest S : List Frame) (r : List Frame × Phase)
    (h : completeValue v rest = some r) :
    (∃ w, r = ([], .done w) ∧ completeValue v (rest ++ S) = completeValue w S) ∨
      (r.1 ≠ [] ∧ completeValue v (rest ++ S) = some (r.1 ++ S, r.2)) := by
  rcases completeValue_any v rest S r h with ⟨h1, h2⟩ | h1
  · left
    subst h2
    exact ⟨v, h1, rfl⟩
  · right
    exact h1

theorem parseStep_frame (L L' : Nat) (st : List Frame) (ph : Phase) (t : Tok) (S : List Frame)
    (r : List Frame × Phase) (hL : L + S.length ≤ L') (hI : st ≠ [] ∨ ph = .beginValue)
    (h : parseStep L (st, ph) t = some r) :
    (∃ v, r = ([], .done v) ∧ parseStep L' (st ++ S, ph) t = completeValue v S) ∨
      (r.1 ≠ [] ∧ parseStep L' (st ++ S, ph) t = some (r.1 ++ S, r.2)) := by
  cases st with
  | nil =>
    have hph : ph = .beginValue := by
      rcases hI with h1 | h1
      · exact absurd rfl h1
      · exact h1
    subst hph
    simp only [parseStep, List.nil_append] at h ⊢
    cases t with
    | lit v =>
      left
      simp only [parseValueTok, completeValue, Option.some.injEq] at h
      exact ⟨v, h.symm, rfl⟩
    | lbrack =>
      right
      simp only [parseValueTok] at h
      split_ifs at h with hd
      simp only [Option.some.injEq] at h
      subst h
      have hd' : S.length < L' := by
        simp only [List.length_nil] at hd
        omega
      simp [parseValueTok, hd']
    | lbrace =>
      right
      simp only [parseValueTok] at h
      split_ifs at h with hd
      simp only [Option.some.injEq] at h
      subst h
      have hd' : S.length < L' := by
        simp only [List.length_nil] at hd
        omega
      simp [parseValueTok, hd']
    | rbrace => simp [parseValueTok] at h
    | rbrack => simp [parseValueTok] at h
    | colon => simp [parseValueTok] at h
    | comma => simp [parseValueTok] at h
  | cons f rest =>
    cases ph with
    | beginValue =>
      right
      exact parseValueTok_frame L L' f rest S t r hL h
    | beginValueOrEnd =>
      cases t with
      | rbrack =>
        cases f with
        | arr items =>
          simp only [parseStep] at h ⊢
          exact pop_frame _ rest S r h
        | obj ms key => simp [parseStep, parseValueTok] at h
      | lit v =>
        simp only [parseStep] at h ⊢
        exact Or.inr (parseValueTok_frame L L' f rest S _ r hL h)
      | lbrack =>
        simp only [parseStep] at h ⊢
        exact Or.inr (parseValueTok_frame L L' f rest S _ r hL h)
      | lbrace =>
        simp only [parseStep] at h ⊢
        exact Or.inr (parseValueTok_frame L L' f rest S _ r hL h)
      | rbrace =>
        simp only [parseStep] at h ⊢
        exact Or.inr (parseValueTok_frame L L' f rest S _ r hL h)
      | colon =>
        simp only [parseStep] at h ⊢
        exact Or.inr (parseValueTok_frame L L' f rest S _ r hL h)
      | comma =>
        simp only [parseStep] at h ⊢
        exact Or.inr (parseValueTok_frame L L' f rest S _ r hL h)
    | beginKeyOrEnd =>
      cases t with
      | rbrace =>
        cases f with
        | arr items => simp [parseStep, parseKeyTok] at h
        | obj ms key =>
          cases key with
          | none =>
            simp only [parseStep] at h ⊢
            exact pop_frame _ rest S r h
          | some k => simp [parseStep, parseKeyTok] at h
      | lit v =>
        simp only [parseStep] at h ⊢
        exact Or.inr (parseKeyTok_frame f rest S _ r h)
      | lbrack =>
        simp only [parseStep] at h ⊢
        exact Or.inr (parseKeyTok_frame f rest S _ r h)
      | lbrace =>
        simp only [parseStep] at h ⊢
        exact Or.inr (parseKeyTok_frame f rest S _ r h)
      | rbrack =>
        simp only [parseStep] at h ⊢
        exact Or.inr (parseKeyTok_frame f rest S _ r h)
      | colon =>
        simp only [parseStep] at h ⊢
        exact Or.inr (parseKeyTok_frame f rest S _ r h)
      | comma =>
        simp only [parseStep] at h ⊢
        exact Or.inr (parseKeyTok_frame f rest S _ r h)
    | beginKey =>
      right
      exact parseKeyTok_frame f rest S t r h
    | colon =>
      right
      cases t with
      | colon =>
        simp only [parseStep, Option.some.injEq] at h
        subst h
        simp [parseStep]
      | lit v => simp [parseStep] at h
      | lbrack => simp [parseStep] at h
      | lbrace => simp [parseStep] at h
      | rbrace => simp [parseStep] at h
      | rbrack => simp [parseStep] at h
      | comma => simp [parseStep] at h
    | endValue =>
      cases t with
      | comma =>
        right
        cases f with
        | arr items =>
          simp only [parseStep, Option.some.injEq] at h
          subst h
          simp [parseStep]
        | obj ms key =>
          cases key with
          | none =>
            simp only [parseStep, Option.some.injEq] at h
            subst h
            simp [parseStep]
          | some k => simp [parseStep] at h
      | rbrack =>
        cases f with
        | arr items =>
          simp only [parseStep] at h ⊢
          exact pop_frame _ rest S r h
        | obj ms key => simp [parseStep] at h
      | rbrace =>
        cases f with
        | arr items => simp [parseStep] at h
        | obj ms key =>
          cases key with
          | none =>
            simp only [parseStep] at h ⊢
            exact pop_frame _ rest S r h
          | some k => simp [parseStep] at h
      | lit v => simp [parseStep] at h
      | lbrack => simp [parseStep] at h
      | lbrace => simp [parseStep] at h
      | colon => simp [parseStep] at h
    | done v => simp [parseStep] at h

theorem parseLoop_frame (L L' : Nat) (toks : List Tok) (st : List Frame) (ph : Phase)
    (S : List Frame) (v : JSON) (hL : L + S.length ≤ L') (hI : st ≠ [] ∨ ph = .beginValue)
    (h : parseLoop L toks (st, ph) = some ([], .done v)) :
    parseLoop L' toks (st ++ S, ph) = completeValue v S := by
  induction toks generalizing st ph with
  | nil =>
    simp only [parseLoop, Option.some.injEq, Prod.mk.injEq] at h
    rcases hI with h1 | h1
    · exact absurd h.1 h1
    · rw [h1] at h
      cases h.2
  | cons t rest ih =>
    simp only [parseLoop] at h ⊢
    cases hs : parseStep L (st, ph) t with
    | none => rw [hs] at h; cases h
    | some r =>
      rw [hs] at h
      rcases parseStep_frame L L' st ph t S r hL hI hs with ⟨w, hw, hl⟩ | ⟨hne, hl⟩
      · subst hw
        cases rest with
        | nil =>
          simp only [parseLoop, Option.some.injEq, Prod.mk.injEq, Phase.done.injEq,
            true_and] at h
          subst h
          rw [hl]
          cases completeValue w S <;> rfl
        | cons t2 rest2 => simp [parseLoop, parseStep] at h
      · rw [hl]
        exact ih r.1 r.2 (Or.inl hne) h

theorem parseLimited_loop (L : Nat) (pb : Bytes) (P : JSON) (h : parseLimited L pb = some P) :
    ∃ toksP, lex pb = some toksP ∧ parseLoop L toksP ([], .beginValue) = some ([], .done P) := by
  unfold parseLimited at h
  cases hl : lex pb with
  | none => rw [hl] at h; cases h
  | some toksP =>
    rw [hl] at h
    simp only at h
    refine ⟨toksP, rfl, ?_⟩
    cases hq : parseLoop L toksP ([], .beginValue) with
    | none => simp [hq] at h
    | some r =>
      obtain ⟨st, ph⟩ := r
      rw [hq] at h
      cases st with
      | nil =>
        cases ph with
        | done v =>
          simp only [Option.some.injEq] at h
          rw [h]
        | _ => simp at h
      | cons f rest => simp at h

theorem parseLimited_mono (L L' : Nat) (pb : Bytes) (P : JSON) (hL : L ≤ L')
    (h : parseLimited L pb = some P) : parseLimited L' pb = some P := by
  obtain ⟨toksP, hl, hpl⟩ := parseLimited_loop L pb P h
  have hframe := parseLoop_frame L L' toksP [] .beginValue [] P (by simpa using hL)
    (Or.inr rfl) hpl
  rw [List.append_nil] at hframe
  unfold parseLimited
  rw [hl]
  simp only [hframe, completeValue]

theorem parseJSON_envelope (pb : Bytes) (P : JSON)
    (h : parseLimited (maxNestingDepth - 1) pb = some P) :
    parseJSON (envelopeHead ++ pb ++ ascii "\x7d") =
      some (envelope (.str (ascii "OK")) (.num (ascii "200")) P) := by
  obtain ⟨toksP, hl, hpl⟩ := parseLimited_loop _ pb P h
  have hhead : lexLoop envelopeHead (.idle, []) = some (.idle,
      [.colon, .lit (.str (ascii "data")), .comma, .lit (.num (ascii "200")), .colon,
        .lit (.str (ascii "status_code")), .comma, .lit (.str (ascii "OK")), .colon,
        .lit (.str (ascii "status_txt")), .lbrace]) := by rfl
  have hlex := lex_wrapped envelopeHead pb _ toksP hhead hl
  have hframe := parseLoop_frame (maxNestingDepth - 1) maxNestingDepth toksP [] .beginValue
    [.obj [(ascii "status_code", .num (ascii "200")), (ascii "status_txt", .str (ascii "OK"))]
      (some (ascii "data"))] P (by decide) (Or.inr rfl) hpl
  unfold parseJSON parseLimited
  rw [hlex]
  simp only [List.reverse_cons, List.reverse_nil, List.nil_append, List.cons_append,
    List.append_assoc, List.singleton_append]
  have hsplit : ∀ (xs : List Tok),
      (Tok.lbrace :: .lit (.str (ascii "status_txt")) :: .colon :: .lit (.str (ascii "OK")) ::
        .comma :: .lit (.str (ascii "status_code")) :: .colon :: .lit (.num (ascii "200")) ::
        .comma :: .lit (.str (ascii "data")) :: .colon :: xs) =
      [Tok.lbrace, .lit (.str (ascii "status_txt")), .colon, .lit (.str (ascii "OK")),
        .comma, .lit (.str (ascii "status_code")), .colon, .lit (.num (ascii "200")),
        .comma, .lit (.str (ascii "data")), .colon] ++ xs := fun _ => rfl
  rw [hsplit, parseLoop_append]
  have hpre : parseLoop maxNestingDepth [Tok.lbrace, .lit (.str (ascii "status_txt")), .colon,
        .lit (.str (ascii "OK")), .comma, .lit (.str (ascii "status_code")), .colon,
        .lit (.num (ascii "200")), .comma, .lit (.str (ascii "data")), .colon]
      ([], .beginValue) =
      some ([.obj [(ascii "status_code", .num (ascii "200")),
        (ascii "status_txt", .str (ascii "OK"))] (some (ascii "data"))], .beginValue) := by rfl
  rw [hpre, Option.some_bind, parseLoop_append]
  rw [List.nil_append] at hframe
  rw [hframe]
  rfl

/-! ## Nesting at the limit -/

theorem lexLoop_replicate_open (n : Nat) (toks : List Tok) :
    lexLoop (List.replicate n 0x5B) (.idle, toks) =
      some (.idle, List.replicate n Tok.lbrack ++ toks) := by
  induction n generalizing toks with
  | zero => rfl
  | succ n ih =>
    have hs : lexStep (LexMode.idle, toks) 0x5B = some (.idle, .lbrack :: toks) := by rfl
    simp only [List.replicate_succ, lexLoop, hs, ih]
    rw [← List.replicate_succ, List.replicate_succ']
    simp

theorem lexLoop_replicate_close (n : Nat) (toks : List Tok) :
    lexLoop (List.replicate n 0x5D) (.idle, toks) =
      some (.idle, List.replicate n Tok.rbrack ++ toks) := by
  induction n generalizing toks with
  | zero => rfl
  | succ n ih =>
    have hs : lexStep (LexMode.idle, toks) 0x5D = some (.idle, .rbrack :: toks) := by rfl
    simp only [List.replicate_succ, lexLoop, hs, ih]
    rw [← List.replicate_succ, List.replicate_succ']
    simp

theorem lex_nestedArrays (n : Nat) :
    lex (nestedArrays n) = some (List.replicate n Tok.lbrack ++ List.replicate n Tok.rbrack) := by
  unfold lex nestedArrays
  rw [lexLoop_append, lexLoop_replicate_open, Option.some_bind, lexLoop_replicate_close]
  simp

theorem parseLoop_open (L n : Nat) (rest : List Tok) (st : List Frame) (ph : Phase)
    (hph : ph = .beginValue ∨ ph = .beginValueOrEnd) (hL : st.length + (n + 1) ≤ L) :
    parseLoop L (List.replicate (n + 1) Tok.lbrack ++ rest) (st, ph) =
      parseLoop L rest (List.replicate (n + 1) (Frame.arr []) ++ st, .beginValueOrEnd) := by
  induction n generalizing st ph with
  | zero =>
    have hd : st.length < L := by omega
    rcases hph with rfl | rfl <;>
      simp [parseLoop, parseStep, parseValueTok, hd]
  | succ n ih =>
    have hd : st.length < L := by omega
    have hstep : parseStep L (st, ph) Tok.lbrack = some (.arr [] :: st, .beginValueOrEnd) := by
      rcases hph with rfl | rfl <;> simp [parseStep, parseValueTok, hd]
    rw [List.replicate_succ, List.cons_append, parseLoop, hstep]
    simp only
    rw [ih (.arr [] :: st) .beginValueOrEnd (Or.inr rfl)
      (by simp only [List.length_cons]; omega)]
    congr 2
    rw [List.replicate_succ' (n + 1)]
    simp

theorem parseLoop_open_fail (L n : Nat) (rest : List Tok) (st : List Frame) (ph : Phase)
    (hph : ph = .beginValue ∨ ph = .beginValueOrEnd) (hL : L < st.length + (n + 1)) :
    parseLoop L (List.replicate (n + 1) Tok.lbrack ++ rest) (st, ph) = none := by
  induction n generalizing st ph with
  | zero =>
    have hd : ¬ st.length < L := by omega
    rcases hph with rfl | rfl <;>
      simp [parseLoop, parseStep, parseValueTok, hd]
  | succ n ih =>
    by_cases hd : st.length < L
    · have hstep : parseStep L (st, ph) Tok.lbrack = some (.arr [] :: st, .beginValueOrEnd) := by
        rcases hph with rfl | rfl <;> simp [parseStep, parseValueTok, hd]
      rw [List.replicate_succ, List.cons_append, parseLoop, hstep]
      simp only
      exact ih (.arr [] :: st) .beginValueOrEnd (Or.inr rfl)
        (by simp only [List.length_cons]; omega)
    · have hstep : parseStep L (st, ph) Tok.lbrack = none := by
        rcases hph with rfl | rfl <;> simp [parseStep, parseValueTok, hd]
      rw [List.replicate_succ, List.cons_append, parseLoop, hstep]

theorem parseLoop_close (L j : Nat) (v : JSON) :
    parseLoop L (List.replicate (j + 1) Tok.rbrack)
      (.arr [v] :: List.replicate j (Frame.arr []), .endValue) =
      some ([], .done (wrapArr j (.arr [v]))) := by
  induction j generalizing v with
  | zero => rfl
  | succ j ih =>
    rw [List.replicate_succ, parseLoop]
    have hstep : parseStep L (.arr [v] :: List.replicate (j + 1) (Frame.arr []), .endValue)
        Tok.rbrack = some (.arr [.arr [v]] :: List.replicate j (Frame.arr []), .endValue) := by
      rfl
    rw [hstep]
    simp only
    rw [ih (.arr [v])]
    rfl

theorem parseLimited_nestedArrays (L n : Nat) (hL : n + 2 ≤ L) :
    parseLimited L (nestedArrays (n + 2)) = some (wrapArr (n + 1) (.arr [])) := by
  unfold parseLimited
  rw [lex_nestedArrays]
  simp only
  rw [parseLoop_open L (n + 1) _ [] .beginValue (Or.inl rfl) (by simpa using hL)]
  rw [List.append_nil, List.replicate_succ (n := n + 1) (a := Tok.rbrack), parseLoop]
  have hstep : parseStep L (List.replicate (n + 1 + 1) (Frame.arr []), .beginValueOrEnd)
      Tok.rbrack = some (.arr [.arr []] :: List.replicate n (Frame.arr []), .endValue) := by
    rfl
  rw [hstep]
  simp only
  rw [parseLoop_close L n (.arr [])]
  rfl

theorem parseJSON_deep_envelope (n : Nat) (hn : maxNestingDepth ≤ n + 1) :
    parseJSON (envelopeHead ++ nestedArrays (n + 1) ++ ascii "\x7d") = none := by
  have hhead : lexLoop envelopeHead (.idle, []) = some (.idle,
      [.colon, .lit (.str (ascii "data")), .comma, .lit (.num (ascii "200")), .colon,
        .lit (.str (ascii "status_code")), .comma, .lit (.str (ascii "OK")), .colon,
        .lit (.str (ascii "status_txt")), .lbrace]) := by rfl
  have hlex := lex_wrapped envelopeHead (nestedArrays (n + 1)) _ _ hhead (lex_nestedArrays (n + 1))
  unfold parseJSON parseLimited
  rw [hlex]
  simp only [List.reverse_cons, List.reverse_nil, List.nil_append, List.cons_append,
    List.append_assoc, List.singleton_append]
  have hsplit : ∀ (xs : List Tok),
      (Tok.lbrace :: .lit (.str (ascii "status_txt")) :: .colon :: .lit (.str (ascii "OK")) ::
        .comma :: .lit (.str (ascii "status_code")) :: .colon :: .lit (.num (ascii "200")) ::
        .comma :: .lit (.str (ascii "data")) :: .colon :: xs) =
      [Tok.lbrace, .lit (.str (ascii "status_txt")), .colon, .lit (.str (ascii "OK")),
        .comma, .lit (.str (ascii "status_code")), .colon, .lit (.num (ascii "200")),
        .comma, .lit (.str (ascii "data")), .colon] ++ xs := fun _ => rfl
  rw [hsplit, parseLoop_append]
  have hpre : parseLoop maxNestingDepth [Tok.lbrace, .lit (.str (ascii "status_txt")), .colon,
        .lit (.str (ascii "OK")), .comma, .lit (.str (ascii "status_code")), .colon,
        .lit (.num (ascii "200")), .comma, .lit (.str (ascii "data")), .colon]
      ([], .beginValue) =
      some ([.obj [(ascii "status_code", .num (ascii "200")),
        (ascii "status_txt", .str (ascii "OK"))] (some (ascii "data"))], .beginValue) := by rfl
  rw [hpre, Option.some_bind]
  rw [parseLoop_open_fail maxNestingDepth n _ _ .beginValue (Or.inl rfl)
    (by simp only [List.length_singleton]; omega)]

/-! ## The status fields of the envelope -/

theorem decode_string_err (x : JSON) (s : GoVal) :
    (decode .string x s).2 = wrappedFieldError 0 x := by
  cases x <;> rfl

theorem decode_int_err (x : JSON) (c : GoVal) :
    (decode .int x c).2 = wrappedFieldError 1 x := by
  cases x with
  | num lit =>
    simp only [wrappedFieldError, decode]
    cases parseInt lit <;> rfl
  | _ => rfl

theorem decode_iface_err (x : JSON) (d : GoVal) :
    (decode .iface x d).2 = wrappedFieldError 2 x := by
  cases x with
  | num lit =>
    simp only [wrappedFieldError, decode]
    split_ifs <;> rfl
  | _ => rfl

theorem acceptedStatusText_err (x : JSON) (h : acceptedStatusText x = true) :
    wrappedFieldError 0 x = none := by
  cases x <;> first | rfl | cases h

theorem acceptedStatusCode_err (x : JSON) (h : acceptedStatusCode x = true) :
    wrappedFieldError 1 x = none := by
  cases x with
  | null => rfl
  | num lit =>
    simp only [acceptedStatusCode, Option.isSome_iff_exists] at h
    obtain ⟨n, hn⟩ := h
    simp only [wrappedFieldError, decode, hn]
  | bool b => cases h
  | str s => cases h
  | arr xs => cases h
  | obj ms => cases h

theorem membersAgree_err (k : Bytes) (x y : JSON) (i : Nat)
    (hi : fieldIndex wrappedRespNames k = some i) (h : membersAgree (k, x) (k, y)) :
    wrappedFieldError i x = wrappedFieldError i y := by
  rcases h.2 with h1 | ⟨h0, hx, hy⟩ | ⟨h0, hx, hy⟩
  · simp only at h1
    rw [h1]
  · simp only at h0 hx hy
    rw [hi] at h0
    cases h0
    rw [acceptedStatusText_err x hx, acceptedStatusText_err y hy]
  · simp only at h0 hx hy
    rw [hi] at h0
    cases h0
    rw [acceptedStatusCode_err x hx, acceptedStatusCode_err y hy]

theorem decodeField_wrapped (i : Nat) (x : JSON) (s c d : GoVal) :
    ∃ s' c' d', decodeField wrappedRespFields i x [s, c, d] =
      ([s', c', d'], wrappedFieldError i x) := by
  match i with
  | 0 =>
    exact ⟨(decode .string x s).1, c, d, by
      simp only [wrappedRespFields, decodeField, decode_string_err]⟩
  | 1 =>
    exact ⟨s, (decode .int x c).1, d, by
      simp only [wrappedRespFields, decodeField, decode_int_err]⟩
  | 2 =>
    exact ⟨s, c, (decode .iface x d).1, by
      simp only [wrappedRespFields, decodeField, decode_iface_err x d]⟩
  | n + 3 => exact ⟨s, c, d, by simp only [wrappedRespFields, decodeField, wrappedFieldError]⟩

theorem objectStruct_wrapped_err (ms₁ ms₂ : List (Bytes × JSON))
    (h : List.Forall₂ membersAgree ms₁ ms₂) (s₁ c₁ d₁ s₂ c₂ d₂ : GoVal) :
    (objectStruct (fun i x vs => decodeField wrappedRespFields i x vs) wrappedRespNames ms₁
      [s₁, c₁, d₁]).2 =
    (objectStruct (fun i x vs => decodeField wrappedRespFields i x vs) wrappedRespNames ms₂
      [s₂, c₂, d₂]).2 := by
  induction h generalizing s₁ c₁ d₁ s₂ c₂ d₂ with
  | nil => rfl
  | @cons m₁ m₂ r₁ r₂ hm _ ih =>
    obtain ⟨k, x⟩ := m₁
    obtain ⟨k2, y⟩ := m₂
    have hk : k = k2 := hm.1
    subst hk
    simp only [objectStruct]
    cases hi : fieldIndex wrappedRespNames k with
    | none => exact ih s₁ c₁ d₁ s₂ c₂ d₂
    | some i =>
      obtain ⟨s₁', c₁', d₁', e₁⟩ := decodeField_wrapped i x s₁ c₁ d₁
      obtain ⟨s₂', c₂', d₂', e₂⟩ := decodeField_wrapped i y s₂ c₂ d₂
      simp only [e₁, e₂, membersAgree_err k x y i hi hm, ih s₁' c₁' d₁' s₂' c₂' d₂']

theorem decode_wrapped_obj_err (ms : List (Bytes × JSON)) (vs : List GoVal) :
    (decode wrappedRespType (.obj ms) (.struct vs)).2 =
      (objectStruct (fun i x vs => decodeField wrappedRespFields i x vs) wrappedRespNames ms
        vs).2 := rfl

theorem wrappedMembers_agree (t : GoType) (ms₁ ms₂ : List (Bytes × JSON))
    (h : List.Forall₂ membersAgree ms₁ ms₂) (s₁ c₁ s₂ c₂ dest : GoVal) :
    wrappedMembers t ms₁ s₁ c₁ dest = wrappedMembers t ms₂ s₂ c₂ dest := by
  induction h generalizing s₁ c₁ s₂ c₂ dest with
  | nil => rfl
  | @cons m₁ m₂ r₁ r₂ hm hr ih =>
    obtain ⟨k, x⟩ := m₁
    obtain ⟨k2, y⟩ := m₂
    have hk : k = k2 := hm.1
    subst hk
    cases hi : fieldIndex wrappedRespNames k with
    | none =>
      simp only [wrappedMembers, hi]
      exact ih s₁ c₁ s₂ c₂ dest
    | some i =>
      have he := membersAgree_err k x y i hi hm
      match i, hi, he with
      | 0, hi, he =>
        simp only [wrappedMembers, hi, decode_string_err, he]
        rw [ih (decode .string x s₁).1 c₁ (decode .string y s₂).1 c₂ dest]
      | 1, hi, he =>
        simp only [wrappedMembers, hi, decode_int_err, he]
        rw [ih s₁ (decode .int x c₁).1 s₂ (decode .int y c₂).1 dest]
      | n + 2, hi, he =>
        have hxy : x = y := by
          rcases hm.2 with h1 | ⟨h0, -, -⟩ | ⟨h0, -, -⟩
          · exact h1
          · simp only at h0
            rw [hi] at h0
            cases h0
          · simp only at h0
            rw [hi] at h0
            cases h0
        subst hxy
        cases x with
        | null =>
          simp only [wrappedMembers, hi, decode_wrapped_obj_err]
          rw [objectStruct_wrapped_err r₁ r₂ hr s₁ c₁ .nil s₂ c₂ .nil]
        | _ =>
          simp only [wrappedMembers, hi]
          rw [ih s₁ c₁ s₂ c₂ _]

/-! ## Envelope against direct decoding -/

theorem api_direct {σ : Type} (env : Env σ) (m e : Bytes) (b : Option Bytes) (t : GoType)
    (dest : GoVal) (resp : Response) (P : JSON) (h : Answers env m e b resp)
    (hs : resp.StatusCode = 200)
    (hh : resp.Header.Get (ascii "X-NSQ-Content-Type") = nsqV1)
    (hP : parseJSON resp.Body = some P) :
    (apiRequestNegotiateV1 env m e b t dest).err = (decode t P dest).2.map .json ∧
    (apiRequestNegotiateV1 env m e b t dest).dest = (decode t P dest).1 := by
  have hne : ¬ (resp.Body.length = 0) := by
    intro h0
    rw [List.length_eq_zero] at h0
    rw [h0] at hP
    exact absurd hP (by simp [show parseJSON [] = none from rfl])
  have hh' : resp.Header.Get (ascii "X-NSQ-Content-Type") = ascii "nsq; version=1.0" := hh
  obtain ⟨rq, hq⟩ := api_answered env m e b t dest resp h
  rw [hq]
  simp only [hs, ne_eq, not_true_eq_false, if_false, hh', if_true, hne, Unmarshal, hP, and_self]

theorem api_wrapped {σ : Type} (env : Env σ) (m e : Bytes) (b : Option Bytes) (t : GoType)
    (dest : GoVal) (resp : Response) (ms : List (Bytes × JSON)) (h : Answers env m e b resp)
    (hs : resp.StatusCode = 200)
    (hh : resp.Header.Get (ascii "X-NSQ-Content-Type") ≠ nsqV1)
    (hP : parseJSON resp.Body = some (.obj ms)) :
    (apiRequestNegotiateV1 env m e b t dest).err =
      (wrappedMembers t ms (.str []) (.int 0) dest).2.map .json ∧
    (apiRequestNegotiateV1 env m e b t dest).dest =
      (wrappedMembers t ms (.str []) (.int 0) dest).1 := by
  have hne : ¬ (resp.Body.length = 0) := by
    intro h0
    rw [List.length_eq_zero] at h0
    rw [h0] at hP
    exact absurd hP (by simp [show parseJSON [] = none from rfl])
  have hh' : ¬ resp.Header.Get (ascii "X-NSQ-Content-Type") = ascii "nsq; version=1.0" := hh
  obtain ⟨rq, hq⟩ := api_answered env m e b t dest resp h
  rw [hq]
  simp only [hs, ne_eq, not_true_eq_false, if_false, hh', hne, UnmarshalWrapped, hP, and_self]

theorem api_wrapped_malformed {σ : Type} (env : Env σ) (m e : Bytes) (b : Option Bytes)
    (t : GoType) (dest : GoVal) (resp : Response) (h : Answers env m e b resp)
    (hs : resp.StatusCode = 200)
    (hh : resp.Header.Get (ascii "X-NSQ-Content-Type") ≠ nsqV1)
    (hne : resp.Body ≠ []) (hP : parseJSON resp.Body = none) :
    (apiRequestNegotiateV1 env m e b t dest).err = some (.json .syntaxError) := by
  have hne' : ¬ (resp.Body.length = 0) := by
    intro h0
    exact hne (List.length_eq_zero.mp h0)
  have hh' : ¬ resp.Header.Get (ascii "X-NSQ-Content-Type") = ascii "nsq; version=1.0" := hh
  obtain ⟨rq, hq⟩ := api_answered env m e b t dest resp h
  rw [hq]
  simp only [hs, ne_eq, not_true_eq_false, if_false, hh', hne', UnmarshalWrapped, hP,
    Option.map_some']

theorem valueInterface_wrapArr (k : Nat) (x : JSON) (h : (valueInterface x).2 = none) :
    (valueInterface (wrapArr k x)).2 = none := by
  induction k generalizing x with
  | zero => exact h
  | succ k ih =>
    apply ih
    simp [valueInterface, arrayInterface, h, firstError]

theorem wrapArr_arr (k : Nat) (ys : List JSON) : ∃ items, wrapArr k (.arr ys) = .arr items := by
  induction k generalizing ys with
  | zero => exact ⟨ys, rfl⟩
  | succ k ih => exact ih [.arr ys]

theorem decode_iface_wrapArr (k : Nat) (cur : GoVal) :
    (decode .iface (wrapArr k (.arr [])) cur).2 = none := by
  obtain ⟨items, hi⟩ := wrapArr_arr k []
  have h := valueInterface_wrapArr k (.arr []) rfl
  rw [hi] at h ⊢
  exact h

/-- C2, as stated, fails.  A payload of 10000 nested arrays, the deepest nesting
`encoding/json` accepts, decodes without error under the discriminator header, while the
envelope around it is nested one level deeper and is refused as a syntax error.  And for a
`map[string]int` destination holding one entry, the envelope around the payload `null`
leaves the map as it is, while the body `null` under the discriminator header sets the map
to nil. -/
theorem C2_envelope_differs_from_direct :
    ¬ ((apiRequestNegotiateV1 (serving deepEnvelopeAnswer) (ascii "GET")
          (ascii "http://127.0.0.1:4151/stats") none .iface .nil).err =
        (apiRequestNegotiateV1 (serving deepDirectAnswer) (ascii "GET")
          (ascii "http://127.0.0.1:4151/stats") none .iface .nil).err ∧
      (apiRequestNegotiateV1 (serving deepEnvelopeAnswer) (ascii "GET")
          (ascii "http://127.0.0.1:4151/stats") none .iface .nil).dest =
        (apiRequestNegotiateV1 (serving deepDirectAnswer) (ascii "GET")
          (ascii "http://127.0.0.1:4151/stats") none .iface .nil).dest) ∧
    ¬ ((apiRequestNegotiateV1 (serving nullEnvelopeAnswer) (ascii "GET")
          (ascii "http://127.0.0.1:4151/stats") none intMap
          (.map [(ascii "a", .int 1)])).err =
        (apiRequestNegotiateV1 (serving nullDirectAnswer) (ascii "GET")
          (ascii "http://127.0.0.1:4151/stats") none intMap
          (.map [(ascii "a", .int 1)])).err ∧
      (apiRequestNegotiateV1 (serving nullEnvelopeAnswer) (ascii "GET")
          (ascii "http://127.0.0.1:4151/stats") none intMap
          (.map [(ascii "a", .int 1)])).dest =
        (apiRequestNegotiateV1 (serving nullDirectAnswer) (ascii "GET")
          (ascii "http://127.0.0.1:4151/stats") none intMap
          (.map [(ascii "a", .int 1)])).dest) := by
  constructor
  · rintro ⟨h, -⟩
    have hdeep : parseJSON deepDirectAnswer.Body = some (wrapArr 9999 (.arr [])) :=
      parseLimited_nestedArrays maxNestingDepth 9998 (by decide)
    have hfail : parseJSON deepEnvelopeAnswer.Body = none :=
      parseJSON_deep_envelope 9999 (by decide)
    have hne : deepEnvelopeAnswer.Body ≠ [] := by
      have h0 : envelopeHead ≠ [] := by decide
      exact List.append_ne_nil_of_left_ne_nil (List.append_ne_nil_of_left_ne_nil h0 _) _
    have e₁ := api_wrapped_malformed (serving deepEnvelopeAnswer) (ascii "GET")
      (ascii "http://127.0.0.1:4151/stats") none .iface .nil deepEnvelopeAnswer
      ⟨_, rfl, rfl, rfl⟩ rfl (by decide) hne hfail
    have e₂ := (api_direct (serving deepDirectAnswer) (ascii "GET")
      (ascii "http://127.0.0.1:4151/stats") none .iface .nil deepDirectAnswer _
      ⟨_, rfl, rfl, rfl⟩ rfl rfl hdeep).1
    rw [decode_iface_wrapArr] at e₂
    rw [e₁, e₂] at h
    cases h
  · rintro ⟨-, h⟩
    have e₁ : (apiRequestNegotiateV1 (serving nullEnvelopeAnswer) (ascii "GET")
        (ascii "http://127.0.0.1:4151/stats") none intMap (.map [(ascii "a", .int 1)])).dest
          = .map [(ascii "a", .int 1)] := by rfl
    have e₂ : (apiRequestNegotiateV1 (serving nullDirectAnswer) (ascii "GET")
        (ascii "http://127.0.0.1:4151/stats") none intMap (.map [(ascii "a", .int 1)])).dest
          = .nil := by rfl
    rw [e₁, e₂] at h
    cases h

/-- C2, amended: let a 200 answer carry the discriminator header and a body holding a JSON
payload `P` other than `null` that is nested less than `maxNestingDepth` deep, and let a
200 answer without the discriminator value carry the envelope
`{"status_txt":"OK","status_code":200,"data":` + that body + `}`.  From the same initial
destination both calls leave the same destination, and the errors they return are both
nil or agree in kind, `Value` and `Type`. -/
theorem envelope_same_as_direct {σ₁ σ₂ : Type} (env₁ : Env σ₁) (env₂ : Env σ₂)
    (m₁ e₁ m₂ e₂ : Bytes) (b₁ b₂ : Option Bytes) (t : GoType) (dest : GoVal)
    (resp₁ resp₂ : Response) (P : JSON)
    (h₁ : Answers env₁ m₁ e₁ b₁ resp₁) (h₂ : Answers env₂ m₂ e₂ b₂ resp₂)
    (hs₁ : resp₁.StatusCode = 200) (hs₂ : resp₂.StatusCode = 200)
    (hh₁ : resp₁.Header.Get (ascii "X-NSQ-Content-Type") ≠ nsqV1)
    (hh₂ : resp₂.Header.Get (ascii "X-NSQ-Content-Type") = nsqV1)
    (hP : parseLimited (maxNestingDepth - 1) resp₂.Body = some P)
    (hb : resp₁.Body = envelopeHead ++ resp₂.Body ++ ascii "\x7d")
    (hnull : P ≠ .null) :
    sameErrorUpToPosition (apiRequestNegotiateV1 env₁ m₁ e₁ b₁ t dest).err
      (apiRequestNegotiateV1 env₂ m₂ e₂ b₂ t dest).err ∧
    (apiRequestNegotiateV1 env₁ m₁ e₁ b₁ t dest).dest =
      (apiRequestNegotiateV1 env₂ m₂ e₂ b₂ t dest).dest := by
  have hE : parseJSON resp₁.Body = some (envelope (.str (ascii "OK")) (.num (ascii "200")) P) := by
    rw [hb]
    exact parseJSON_envelope resp₂.Body P hP
  have hD : parseJSON resp₂.Body = some P :=
    parseLimited_mono (maxNestingDepth - 1) maxNestingDepth resp₂.Body P (by decide) hP
  have w := api_wrapped env₁ m₁ e₁ b₁ t dest resp₁ _ h₁ hs₁ hh₁ hE
  have d := api_direct env₂ m₂ e₂ b₂ t dest resp₂ P h₂ hs₂ hh₂ hD
  unfold sameErrorUpToPosition
  rw [w.1, w.2, d.1, d.2, wrappedMembers_envelope]
  cases P with
  | null => exact absurd rfl hnull
  | _ => simp only [and_self]

/-- Witness of `envelope_same_as_direct`: the payload `{"field":"x"}` and a zero
`struct { Field string }`; both calls return nil and leave the field holding `"x"`. -/
theorem envelope_same_as_direct_witness :
    Answers (serving envelopeAnswer) (ascii "GET") (ascii "http://127.0.0.1:4151/info") none
      envelopeAnswer ∧
    Answers (serving directAnswer) (ascii "GET") (ascii "http://127.0.0.1:4151/info") none
      directAnswer ∧
    envelopeAnswer.StatusCode = 200 ∧ directAnswer.StatusCode = 200 ∧
    envelopeAnswer.Header.Get (ascii "X-NSQ-Content-Type") ≠ nsqV1 ∧
    directAnswer.Header.Get (ascii "X-NSQ-Content-Type") = nsqV1 ∧
    parseLimited (maxNestingDepth - 1) directAnswer.Body =
      some (.obj [(ascii "field", .str (ascii "x"))]) ∧
    envelopeAnswer.Body = envelopeHead ++ directAnswer.Body ++ ascii "\x7d" ∧
    sameErrorUpToPosition
      (apiRequestNegotiateV1 (serving envelopeAnswer) (ascii "GET")
        (ascii "http://127.0.0.1:4151/info") none fieldStruct (zeroValue fieldStruct)).err
      (apiRequestNegotiateV1 (serving directAnswer) (ascii "GET")
        (ascii "http://127.0.0.1:4151/info") none fieldStruct (zeroValue fieldStruct)).err ∧
    (apiRequestNegotiateV1 (serving directAnswer) (ascii "GET")
        (ascii "http://127.0.0.1:4151/info") none fieldStruct (zeroValue fieldStruct)).err
      = none ∧
    (apiRequestNegotiateV1 (serving envelopeAnswer) (ascii "GET")
        (ascii "http://127.0.0.1:4151/info") none fieldStruct (zeroValue fieldStruct)).dest =
      .struct [.str (ascii "x")] ∧
    (apiRequestNegotiateV1 (serving directAnswer) (ascii "GET")
        (ascii "http://127.0.0.1:4151/info") none fieldStruct (zeroValue fieldStruct)).dest =
      .struct [.str (ascii "x")] :=
  have w := envelope_same_as_direct (serving envelopeAnswer) (serving directAnswer) (ascii "GET")
      (ascii "http://127.0.0.1:4151/info") (ascii "GET") (ascii "http://127.0.0.1:4151/info")
      none none fieldStruct (zeroValue fieldStruct) envelopeAnswer directAnswer
      (.obj [(ascii "field", .str (ascii "x"))]) ⟨_, rfl, rfl, rfl⟩ ⟨_, rfl, rfl, rfl⟩ rfl rfl
      (by decide) rfl rfl rfl (fun h => by cases h)
  have hd : (apiRequestNegotiateV1 (serving directAnswer) (ascii "GET")
        (ascii "http://127.0.0.1:4151/info") none fieldStruct (zeroValue fieldStruct)).err
      = none := rfl
  have hdd : (apiRequestNegotiateV1 (serving directAnswer) (ascii "GET")
        (ascii "http://127.0.0.1:4151/info") none fieldStruct (zeroValue fieldStruct)).dest =
      .struct [.str (ascii "x")] := rfl
  ⟨⟨_, rfl, rfl, rfl⟩, ⟨_, rfl, rfl, rfl⟩, rfl, rfl, by decide, rfl, rfl, rfl,
    w.1, hd, w.2.trans hdd, hdd⟩

/-! ## The status fields are dropped -/

/-- C6, as stated, fails: two envelopes around the same payload that differ only in the
value of `status_code`, 200 in one and the integer 99999999999999999999 in the other; the
first call returns nil, the second an `UnmarshalTypeError`. -/
theorem C6_status_code_value_matters :
    ¬ ((apiRequestNegotiateV1 (serving envelopeAnswer) (ascii "GET")
          (ascii "http://127.0.0.1:4151/info") none fieldStruct (zeroValue fieldStruct)).err =
        (apiRequestNegotiateV1 (serving envelopeHugeCodeAnswer) (ascii "GET")
          (ascii "http://127.0.0.1:4151/info") none fieldStruct (zeroValue fieldStruct)).err ∧
      (apiRequestNegotiateV1 (serving envelopeAnswer) (ascii "GET")
          (ascii "http://127.0.0.1:4151/info") none fieldStruct (zeroValue fieldStruct)).dest =
        (apiRequestNegotiateV1 (serving envelopeHugeCodeAnswer) (ascii "GET")
          (ascii "http://127.0.0.1:4151/info") none fieldStruct (zeroValue fieldStruct)).dest) := by
  rintro ⟨h, -⟩
  have e₁ : (apiRequestNegotiateV1 (serving envelopeAnswer) (ascii "GET")
      (ascii "http://127.0.0.1:4151/info") none fieldStruct (zeroValue fieldStruct)).err
        = none := by rfl
  have e₂ : (apiRequestNegotiateV1 (serving envelopeHugeCodeAnswer) (ascii "GET")
      (ascii "http://127.0.0.1:4151/info") none fieldStruct (zeroValue fieldStruct)).err
        = some (.json (.unmarshalType (ascii "number 99999999999999999999") .int)) := by rfl
  rw [e₁, e₂] at h
  cases h

/-- C6, amended: two 200 answers without the discriminator value whose bodies are JSON
objects with the same members in the same order, except that a member selecting `Status`
may have any two strings (or `null`) and a member selecting `StatusCode` any two integers
that fit in 64 bits (or `null`) as its values, make the call leave the same destination
and return errors that are both nil or agree in kind, `Value` and `Type`. -/
theorem status_fields_dropped {σ₁ σ₂ : Type} (env₁ : Env σ₁) (env₂ : Env σ₂)
    (m₁ e₁ m₂ e₂ : Bytes) (b₁ b₂ : Option Bytes) (t : GoType) (dest : GoVal)
    (resp₁ resp₂ : Response) (ms₁ ms₂ : List (Bytes × JSON))
    (h₁ : Answers env₁ m₁ e₁ b₁ resp₁) (h₂ : Answers env₂ m₂ e₂ b₂ resp₂)
    (hs₁ : resp₁.StatusCode = 200) (hs₂ : resp₂.StatusCode = 200)
    (hh₁ : resp₁.Header.Get (ascii "X-NSQ-Content-Type") ≠ nsqV1)
    (hh₂ : resp₂.Header.Get (ascii "X-NSQ-Content-Type") ≠ nsqV1)
    (hP₁ : parseJSON resp₁.Body = some (.obj ms₁))
    (hP₂ : parseJSON resp₂.Body = some (.obj ms₂))
    (hm : List.Forall₂ membersAgree ms₁ ms₂) :
    sameErrorUpToPosition (apiRequestNegotiateV1 env₁ m₁ e₁ b₁ t dest).err
      (apiRequestNegotiateV1 env₂ m₂ e₂ b₂ t dest).err ∧
    (apiRequestNegotiateV1 env₁ m₁ e₁ b₁ t dest).dest =
      (apiRequestNegotiateV1 env₂ m₂ e₂ b₂ t dest).dest := by
  have w₁ := api_wrapped env₁ m₁ e₁ b₁ t dest resp₁ ms₁ h₁ hs₁ hh₁ hP₁
  have w₂ := api_wrapped env₂ m₂ e₂ b₂ t dest resp₂ ms₂ h₂ hs₂ hh₂ hP₂
  unfold sameErrorUpToPosition
  rw [w₁.1, w₁.2, w₂.1, w₂.2, wrappedMembers_agree t ms₁ ms₂ hm (.str []) (.int 0) (.str [])
    (.int 0) dest]
  exact ⟨rfl, rfl⟩

/-- Witness of `status_fields_dropped`: the envelopes `OK`/200 and `ERR`/500 around the
payload `{"field":"x"}`; both calls return nil and leave the field holding `"x"`. -/
theorem status_fields_dropped_witness :
    Answers (serving envelopeAnswer) (ascii "GET") (ascii "http://127.0.0.1:4151/info") none
      envelopeAnswer ∧
    Answers (serving envelope500Answer) (ascii "GET") (ascii "http://127.0.0.1:4151/info") none
      envelope500Answer ∧
    envelopeAnswer.StatusCode = 200 ∧ envelope500Answer.StatusCode = 200 ∧
    envelopeAnswer.Header.Get (ascii "X-NSQ-Content-Type") ≠ nsqV1 ∧
    envelope500Answer.Header.Get (ascii "X-NSQ-Content-Type") ≠ nsqV1 ∧
    parseJSON envelopeAnswer.Body = some (envelope (.str (ascii "OK")) (.num (ascii "200"))
      (.obj [(ascii "field", .str (ascii "x"))])) ∧
    parseJSON envelope500Answer.Body = some (envelope (.str (ascii "ERR")) (.num (ascii "500"))
      (.obj [(ascii "field", .str (ascii "x"))])) ∧
    List.Forall₂ membersAgree
      [(ascii "status_txt", .str (ascii "OK")), (ascii "status_code", .num (ascii "200")),
        (ascii "data", .obj [(ascii "field", .str (ascii "x"))])]
      [(ascii "status_txt", .str (ascii "ERR")), (ascii "status_code", .num (ascii "500")),
        (ascii "data", .obj [(ascii "field", .str (ascii "x"))])] ∧
    sameErrorUpToPosition
      (apiRequestNegotiateV1 (serving envelopeAnswer) (ascii "GET")
        (ascii "http://127.0.0.1:4151/info") none fieldStruct (zeroValue fieldStruct)).err
      (apiRequestNegotiateV1 (serving envelope500Answer) (ascii "GET")
        (ascii "http://127.0.0.1:4151/info") none fieldStruct (zeroValue fieldStruct)).err ∧
    (apiRequestNegotiateV1 (serving envelopeAnswer) (ascii "GET")
        (ascii "http://127.0.0.1:4151/info") none fieldStruct (zeroValue fieldStruct)).err
      = none ∧
    (apiRequestNegotiateV1 (serving envelope500Answer) (ascii "GET")
        (ascii "http://127.0.0.1:4151/info") none fieldStruct (zeroValue fieldStruct)).dest =
      .struct [.str (ascii "x")] :=
  have agree : List.Forall₂ membersAgree
      [(ascii "status_txt", .str (ascii "OK")), (ascii "status_code", .num (ascii "200")),
        (ascii "data", .obj [(ascii "field", .str (ascii "x"))])]
      [(ascii "status_txt", .str (ascii "ERR")), (ascii "status_code", .num (ascii "500")),
        (ascii "data", .obj [(ascii "field", .str (ascii "x"))])] :=
    .cons ⟨rfl, .inr (.inl ⟨rfl, rfl, rfl⟩)⟩
      (.cons ⟨rfl, .inr (.inr ⟨rfl, rfl, rfl⟩)⟩ (.cons ⟨rfl, .inl rfl⟩ .nil))
  have w := status_fields_dropped (serving envelopeAnswer) (serving envelope500Answer)
      (ascii "GET") (ascii "http://127.0.0.1:4151/info") (ascii "GET")
      (ascii "http://127.0.0.1:4151/info") none none fieldStruct (zeroValue fieldStruct)
      envelopeAnswer envelope500Answer _ _ ⟨_, rfl, rfl, rfl⟩ ⟨_, rfl, rfl, rfl⟩ rfl rfl
      (by decide) (by decide) rfl rfl agree
  have he : (apiRequestNegotiateV1 (serving envelopeAnswer) (ascii "GET")
        (ascii "http://127.0.0.1:4151/info") none fieldStruct (zeroValue fieldStruct)).err
      = none := rfl
  have hd : (apiRequestNegotiateV1 (serving envelopeAnswer) (ascii "GET")
        (ascii "http://127.0.0.1:4151/info") none fieldStruct (zeroValue fieldStruct)).dest =
      .struct [.str (ascii "x")] := rfl
  ⟨⟨_, rfl, rfl, rfl⟩, ⟨_, rfl, rfl, rfl⟩, rfl, rfl, by decide, by decide, rfl, rfl, agree,
    w.1, he, w.2.symm.trans hd⟩

end GoNsq
